import Mathlib

/-!
Verification development for the market intelligence app
(configuration loader, inference client, persistence layer,
telemetry logger, PDF report generator).

Python code is shallowly embedded: Python values are modelled by the
inductive type `PyVal`, a call that can raise is modelled by
`Except String` (the `String` is the exception kind/message), and calls
into vendor SDKs (MLflow, the serving endpoint, psycopg2, the JSON
parser) are modelled as explicit oracle parameters describing the
behaviour of the external system on this run.
-/

set_option autoImplicit false
set_option linter.unusedVariables false

namespace MarketIntel

/-- A Python runtime value, as far as the code under verification
inspects values.

* `vstr`, `vint`, `vbool`, `vnone` are the scalar values.
* `vlist` and `vdict` are built-in lists and (string-keyed) dicts.
* `vobj attrs` is a plain Python object carrying the attribute map
  `attrs`; `hasattr o n` is membership of `n` in `attrs`.  An attribute
  that the code only ever *calls* (such as `to_dict` or `get`) stores the
  value that the call returns.  A plain object always has `__dict__`,
  which is `attrs` viewed as a dict.
* `vforeign tag` is an object that exposes none of the attributes the
  code probes for, is not convertible by `dict(...)`, and is not JSON
  serializable; `str()` of it is `tag`. -/
inductive PyVal where
  | vstr (s : String)
  | vint (n : Int)
  | vbool (b : Bool)
  | vnone
  | vlist (xs : List PyVal)
  | vdict (entries : List (String × PyVal))
  | vobj (attrs : List (String × PyVal))
  | vforeign (tag : String)

/-- First value bound to `key` in an association list (Python dict lookup). -/
def lookupStr (key : String) : List (String × PyVal) → Option PyVal
  | [] => none
  | (k, v) :: rest => if k = key then some v else lookupStr key rest

/-- Structural equality on `PyVal` (Python `==` on the fragment we model). -/
def pyBeq : PyVal → PyVal → Bool
  | PyVal.vstr a, PyVal.vstr b => a = b
  | PyVal.vint a, PyVal.vint b => a = b
  | PyVal.vbool a, PyVal.vbool b => a = b
  | PyVal.vnone, PyVal.vnone => true
  | PyVal.vlist xs, PyVal.vlist ys => pyBeqList xs ys
  | PyVal.vdict xs, PyVal.vdict ys => pyBeqEntries xs ys
  | PyVal.vobj xs, PyVal.vobj ys => pyBeqEntries xs ys
  | PyVal.vforeign a, PyVal.vforeign b => a = b
  | _, _ => false
where
  pyBeqList : List PyVal → List PyVal → Bool
    | [], [] => true
    | x :: xs, y :: ys => pyBeq x y && pyBeqList xs ys
    | _, _ => false
  pyBeqEntries : List (String × PyVal) → List (String × PyVal) → Bool
    | [], [] => true
    | (k, v) :: xs, (l, w) :: ys => k = l && pyBeq v w && pyBeqEntries xs ys
    | _, _ => false

/-- Python truthiness (`if value:`). -/
def pyTruthy : PyVal → Bool
  | PyVal.vstr s => s ≠ ""
  | PyVal.vint n => n ≠ 0
  | PyVal.vbool b => b
  | PyVal.vnone => false
  | PyVal.vlist xs => !xs.isEmpty
  | PyVal.vdict es => !es.isEmpty
  | PyVal.vobj _ => true
  | PyVal.vforeign _ => true

/-- Python `repr` of a value, simplified: strings are wrapped in single
quotes without inner escaping.  Only used through `pyStr` for container
values, whose exact text no claim depends on. -/
def pyRepr : PyVal → String
  | PyVal.vstr s => "\x27" ++ s ++ "\x27"
  | PyVal.vint n => toString n
  | PyVal.vbool b => if b then "True" else "False"
  | PyVal.vnone => "None"
  | PyVal.vlist xs => "[" ++ String.intercalate ", " (pyReprList xs) ++ "]"
  | PyVal.vdict es => "\x7b" ++ String.intercalate ", " (pyReprEntries es) ++ "\x7d"
  | PyVal.vobj _ => "<object>"
  | PyVal.vforeign tag => tag
where
  pyReprList : List PyVal → List String
    | [] => []
    | x :: xs => pyRepr x :: pyReprList xs
  pyReprEntries : List (String × PyVal) → List String
    | [] => []
    | (k, v) :: es => ("\x27" ++ k ++ "\x27: " ++ pyRepr v) :: pyReprEntries es

/-- Python `str` of a value (containers fall back to `repr` of their
elements, as in CPython). -/
def pyStr : PyVal → String
  | PyVal.vstr s => s
  | v => pyRepr v

/-- `True` iff the `Except` models a call that returned normally. -/
def exceptSucceeds {α : Type} : Except String α → Bool
  | Except.ok _ => true
  | Except.error _ => false

/-- `json.dumps(v, indent=2)` : succeeds exactly on values built from
dict/list/str/int/bool/None, raising `TypeError` otherwise; the produced
text abstracts from the `indent=2` whitespace and from escaping inside
string literals. -/
def jsonDumps : PyVal → Option String
  | PyVal.vstr s => some ("\"" ++ s ++ "\"")
  | PyVal.vint n => some (toString n)
  | PyVal.vbool b => some (if b then "true" else "false")
  | PyVal.vnone => some "null"
  | PyVal.vlist xs =>
    (jsonDumpsList xs).map (fun ss => "[" ++ String.intercalate ", " ss ++ "]")
  | PyVal.vdict es =>
    (jsonDumpsEntries es).map
      (fun ss => "\x7b" ++ String.intercalate ", " ss ++ "\x7d")
  | PyVal.vobj _ => none
  | PyVal.vforeign _ => none
where
  jsonDumpsList : List PyVal → Option (List String)
    | [] => some []
    | x :: xs => do
      let s ← jsonDumps x
      let ss ← jsonDumpsList xs
      some (s :: ss)
  jsonDumpsEntries : List (String × PyVal) → Option (List String)
    | [] => some []
    | (k, v) :: es => do
      let s ← jsonDumps v
      let ss ← jsonDumpsEntries es
      some (("\"" ++ k ++ "\": " ++ s) :: ss)

/-- `getattr` for the attribute names the client probes: only plain
objects carry them (built-in dicts, lists and strings expose none of
`output`, `content`, `text`, `to_dict`). -/
def getattrOpt (v : PyVal) (name : String) : Option PyVal :=
  match v with
  | PyVal.vobj attrs => lookupStr name attrs
  | _ => none

/-- `hasattr(v, "get")`: true for dicts and for objects carrying a
`get` attribute. -/
def pyHasGet : PyVal → Bool
  | PyVal.vdict _ => true
  | PyVal.vobj attrs => (lookupStr "get" attrs).isSome
  | _ => false

/-- `v.get(key, dflt)` for a value known to have `get`; for a
`get`-bearing object the method is modelled as lookup in its attribute
map (the dict-like SDK wrapper behaviour). -/
def pyGetD (v : PyVal) (key : String) (dflt : PyVal) : PyVal :=
  match v with
  | PyVal.vdict es => (lookupStr key es).getD dflt
  | PyVal.vobj attrs => (lookupStr key attrs).getD dflt
  | _ => dflt

/-- `v.get(key)` where `v` need not have a `get` method: raises
`AttributeError` on values without one. -/
def pyGetMethod (v : PyVal) (key : String) : Except String PyVal :=
  match v with
  | PyVal.vdict es => Except.ok ((lookupStr key es).getD PyVal.vnone)
  | PyVal.vobj attrs =>
    if (lookupStr "get" attrs).isSome then
      Except.ok ((lookupStr key attrs).getD PyVal.vnone)
    else Except.error "AttributeError"
  | _ => Except.error "AttributeError"

/-- An element acceptable to `dict(...)`: a two-element sequence whose
first component is a (string) key. -/
def pairEntry : PyVal → Option (String × PyVal)
  | PyVal.vlist [PyVal.vstr k, v] => some (k, v)
  | _ => none

/-- `dict(...)` over the elements of a list: every element must be a
key/value pair. -/
def pyToDictList : List PyVal → Option (List (String × PyVal))
  | [] => some []
  | x :: xs =>
    match pairEntry x, pyToDictList xs with
    | some kv, some rest => some (kv :: rest)
    | _, _ => none

/-- `dict(v)` as used in the `try: response = dict(response)` coercions:
succeeds on the empty string and on lists of key/value pairs, raises
(`TypeError`/`ValueError`, modelled as `none`) otherwise. -/
def pyToDict : PyVal → Option (List (String × PyVal))
  | PyVal.vstr s => if s = "" then some [] else none
  | PyVal.vlist xs => pyToDictList xs
  | _ => none

/-- `needle` is a prefix of `hay`. -/
def startsWithSeq : List Char → List Char → Bool
  | _, [] => true
  | [], _ :: _ => false
  | c :: cs, d :: ds => c = d && startsWithSeq cs ds

/-- `needle` occurs somewhere in `hay` (Python `in` on strings). -/
def containsSeq (needle : List Char) : List Char → Bool
  | [] => startsWithSeq [] needle
  | c :: t => startsWithSeq (c :: t) needle || containsSeq needle t

/-- Python `key in v`: key membership for dicts, substring test for
strings, element membership for lists, `TypeError` for values without
`__contains__`/`__iter__`. -/
def pyContains (key : String) : PyVal → Except String Bool
  | PyVal.vdict es => Except.ok ((lookupStr key es).isSome)
  | PyVal.vstr s => Except.ok (containsSeq key.data s.data)
  | PyVal.vlist xs => Except.ok (xs.any (fun x => pyBeq x (PyVal.vstr key)))
  | _ => Except.error "TypeError"

/-- Python `v[key]` with a string key: dict lookup (`KeyError` when the
key is absent), `TypeError` for non-dict values. -/
def pyIndex (v : PyVal) (key : String) : Except String PyVal :=
  match v with
  | PyVal.vdict es =>
    match lookupStr key es with
    | some x => Except.ok x
    | none => Except.error "KeyError"
  | _ => Except.error "TypeError"

/-! ## Inference client (src/src/databricks_client.py)

`format_response` (lines 284-406) is embedded stage by stage.  The JSON
parser used at line 321 is an oracle `jsonLoads : String → Option PyVal`
(`none` models `json.JSONDecodeError`, which the code catches). -/

/-- Lines 295-309: the OpenAI response-object branch.  `some s` models an
early `return s`; `none` means control falls through. -/
def formatStageA (response : PyVal) : Option String :=
  match getattrOpt response "output" with
  | none => none
  | some output =>
    match output with
    | PyVal.vlist (content_item :: _) =>
      match getattrOpt content_item "content" with
      | none => none
      | some content =>
        match content with
        | PyVal.vlist (text_item :: _) =>
          match getattrOpt text_item "text" with
          | some t => some (pyStr t)
          | none =>
            match text_item with
            | PyVal.vdict es =>
              match lookupStr "text" es with
              | some t => some (pyStr t)
              | none => none
            | _ => none
        | _ => none
    | _ => none

/-- Lines 313-327: extraction of a `predictions` payload from a
`get`-bearing response, JSON-decoding it when it is a string. -/
def formatStageB (jsonLoads : String → Option PyVal) (response : PyVal) : PyVal :=
  if pyHasGet response then
    let predictions := pyGetD response "predictions" PyVal.vnone
    if !pyBeq predictions PyVal.vnone && !pyBeq predictions response then
      match predictions with
      | PyVal.vstr s =>
        match jsonLoads s with
        | some parsed => parsed
        | none => PyVal.vstr s
      | _ => predictions
    else response
  else response

/-- Lines 330-341: coercion of a non-dict response to a dict via
`to_dict`, `__dict__` or `dict(...)`; `Sum.inr s` models the early
`return str(response)` when all of those fail. -/
def formatStageC (response : PyVal) : Sum PyVal String :=
  match response with
  | PyVal.vdict es => Sum.inl (PyVal.vdict es)
  | PyVal.vobj attrs =>
    match lookupStr "to_dict" attrs with
    | some d => Sum.inl d
    | none => Sum.inl (PyVal.vdict attrs)
  | v =>
    match pyToDict v with
    | some es => Sum.inl (PyVal.vdict es)
    | none => Sum.inr (pyStr v)

/-- Lines 350-358 and 365-373: best-effort coercion of a nested value to
a dict (`__dict__`, then `try: dict(...) except: pass`). -/
def coerceDict (v : PyVal) : PyVal :=
  match v with
  | PyVal.vdict es => PyVal.vdict es
  | PyVal.vobj attrs => PyVal.vdict attrs
  | w =>
    match pyToDict w with
    | some es => PyVal.vdict es
    | none => w

/-- Lines 346-379: the `output`-list format.  `ok (some s)` models an
early `return s`; `ok none` means control falls through to the later
formats. -/
def formatOutputBlock (response : PyVal) : Except String (Option String) :=
  match pyGetMethod response "output" with
  | Except.error e => Except.error e
  | Except.ok output =>
    match output with
    | PyVal.vlist (m :: _) =>
      match coerceDict m with
      | PyVal.vdict mes =>
        match lookupStr "content" mes with
        | some content =>
          match content with
          | PyVal.vlist (ci :: _) =>
            match coerceDict ci with
            | PyVal.vdict ces =>
              match lookupStr "text" ces with
              | some t => Except.ok (some (pyStr t))
              | none => Except.ok none
            | _ => Except.ok none
          | _ =>
            if pyTruthy content then Except.ok (some (pyStr content))
            else Except.ok none
        | none => Except.ok none
      | _ => Except.ok none
    | _ => Except.ok none

/-- Lines 386-395: the OpenAI chat-completions format (`choices`).
`some s` models an early `return s`. -/
def formatChoicesBlock (choices : PyVal) : Option String :=
  match choices with
  | PyVal.vlist (choice :: _) =>
    match choice with
    | PyVal.vdict _ =>
      match pyGetD choice "message" (PyVal.vdict []) with
      | PyVal.vdict mes =>
        let content := pyGetD (PyVal.vdict mes) "content" PyVal.vnone
        if pyTruthy content then some (pyStr content) else none
      | _ => none
    | _ => none
  | _ => none

/-- Lines 397-406: the `answer` / `content` formats and the
`json.dumps(response, indent=2)` fallback. -/
def formatStageDtail (response : PyVal) : Except String String :=
  match pyContains "answer" response with
  | Except.error e => Except.error e
  | Except.ok true =>
    match pyIndex response "answer" with
    | Except.error e => Except.error e
    | Except.ok a => Except.ok (pyStr a)
  | Except.ok false =>
    match pyContains "content" response with
    | Except.error e => Except.error e
    | Except.ok true =>
      match pyIndex response "content" with
      | Except.error e => Except.error e
      | Except.ok c => Except.ok (pyStr c)
    | Except.ok false =>
      match jsonDumps response with
      | some s => Except.ok s
      | none => Except.error "TypeError"

/-- Lines 381-395: the `predictions` and `choices` formats, falling
through to `formatStageDtail`. -/
def formatStageDmid (response : PyVal) : Except String String :=
  match pyContains "predictions" response with
  | Except.error e => Except.error e
  | Except.ok true =>
    match pyIndex response "predictions" with
    | Except.error e => Except.error e
    | Except.ok p => Except.ok (pyStr p)
  | Except.ok false =>
    match pyContains "choices" response with
    | Except.error e => Except.error e
    | Except.ok true =>
      match pyIndex response "choices" with
      | Except.error e => Except.error e
      | Except.ok choices =>
        match formatChoicesBlock choices with
        | some s => Except.ok s
        | none => formatStageDtail response
    | Except.ok false => formatStageDtail response

/-- Lines 343-406: the dict-format dispatch, ending in the
`json.dumps(response, indent=2)` fallback. -/
def formatStageD (response : PyVal) : Except String String :=
  match pyContains "output" response with
  | Except.error e => Except.error e
  | Except.ok true =>
    match formatOutputBlock response with
    | Except.error e => Except.error e
    | Except.ok (some s) => Except.ok s
    | Except.ok none => formatStageDmid response
  | Except.ok false => formatStageDmid response

/-- Lines 284-406: `format_response`. -/
def format_response (jsonLoads : String → Option PyVal) (response : PyVal) :
    Except String String :=
  match formatStageA response with
  | some s => Except.ok s
  | none =>
    match formatStageC (formatStageB jsonLoads response) with
    | Sum.inr s => Except.ok s
    | Sum.inl r => formatStageD r

/-- One event of the streaming response; `delta` is `none` when the event
has no `delta` attribute. -/
structure StreamEvent where
  delta : Option PyVal

/-- Lines 158-177 of databricks_client.py: the chunk texts that
`stream_generator` yields (`hasattr(event, "delta") and event.delta`,
then `isinstance(text, str) and text`). -/
def stream_chunks (events : List StreamEvent) : List String :=
  events.filterMap (fun e =>
    match e.delta with
    | some v =>
      if pyTruthy v then
        match v with
        | PyVal.vstr t => if t ≠ "" then some t else none
        | _ => none
      else none
    | none => none)

/-- One prior exchange as handed over by the app layer
(`msg["question"]`, `msg.get("answer")`). -/
structure HistMsg where
  question : String
  answer : Option String

/-- Lines 81-92 (and identically 133-144) of databricks_client.py: the
chat message list sent to the endpoint — each prior question as a user
turn, each truthy prior answer as an assistant turn, then the current
question.  Pairs are (role, content). -/
def build_messages (conversation_history : Option (List HistMsg))
    (question : String) : List (String × String) :=
  let prior :=
    match conversation_history with
    | some msgs =>
      List.flatten (msgs.map (fun m =>
        ("user", m.question) ::
          (match m.answer with
           | some a => if a ≠ "" then [("assistant", a)] else []
           | none => [])))
    | none => []
  prior ++ [("user", question)]

/-- Lines 57-102 of databricks_client.py: `call_endpoint`; the remote
`client.responses.create` call is the oracle `apiSync` (which may
raise). -/
def call_endpoint (apiSync : List (String × String) → Except String PyVal)
    (question : String) (conversation_history : Option (List HistMsg)) :
    Except String PyVal :=
  apiSync (build_messages conversation_history question)

/-- Lines 105-193 of databricks_client.py: `call_endpoint_stream`.  The
streaming request is the oracle `apiStream` (`error` models any
exception raised while building the client or issuing the streaming
call, all inside the `try`), `uuid` is the value `uuid.uuid4()` would
produce after a successful call.  Generators are modelled by the eager
list of chunks they yield; the function returns (chunks, trace_id). -/
def call_endpoint_stream (jsonLoads : String → Option PyVal)
    (apiStream : List (String × String) → Except String (List StreamEvent))
    (apiSync : List (String × String) → Except String PyVal)
    (uuid : String) (question : String)
    (conversation_history : Option (List HistMsg)) :
    Except String (List String × Option String) :=
  match apiStream (build_messages conversation_history question) with
  | Except.ok events => Except.ok (stream_chunks events, some uuid)
  | Except.error _ =>
    -- fall back to the non-streaming variant; trace_id is still None
    match call_endpoint apiSync question conversation_history with
    | Except.error e => Except.error e
    | Except.ok resp =>
      match format_response jsonLoads resp with
      | Except.error e => Except.error e
      | Except.ok formatted => Except.ok ([formatted], none)

/-- A value `json.dumps` accepts: built from dict/list/str/int/bool/None
only. -/
def serializableB (v : PyVal) : Bool := (jsonDumps v).isSome

/-- Responses for which the amended C2 guarantee is stated: dicts whose
values are JSON-serializable, lists that are either not `dict(...)`
convertible or convert to a serializable dict, and scalars; plain
attribute-bearing objects are excluded (their `to_dict` can surface
arbitrary values). -/
def safeResp : PyVal → Bool
  | PyVal.vdict es => serializableB (PyVal.vdict es)
  | PyVal.vlist xs =>
    match pyToDict (PyVal.vlist xs) with
    | some es => serializableB (PyVal.vdict es)
    | none => true
  | PyVal.vobj _ => false
  | _ => true

/-! ## Configuration loader (src/src/config.py)

The YAML file is given pre-parsed (`yaml.safe_load` is a vendor call):
`fileData = none` models a missing `config.yaml`, `some v` the parsed
content.  The process environment is carried as an explicit argument;
config.py reads no environment variable. -/

/-- `v.get(key, dflt)` on a config value: dict lookup with default,
`AttributeError` when the value has no `get` method. -/
def pyCfgGet (v : PyVal) (key : String) (dflt : PyVal) : Except String PyVal :=
  match v with
  | PyVal.vdict es => Except.ok ((lookupStr key es).getD dflt)
  | PyVal.vobj attrs =>
    if (lookupStr "get" attrs).isSome then
      Except.ok ((lookupStr key attrs).getD dflt)
    else Except.error "AttributeError"
  | _ => Except.error "AttributeError"

/-- config.py lines 8-17: `load_config_file` — the parsed file when it
exists, else `{}`. -/
def load_config_file (fileData : Option PyVal) : PyVal :=
  match fileData with
  | some d => d
  | none => PyVal.vdict []

/-- config.py lines 20-26: the `DatabricksConfig` record. -/
structure DatabricksConfig where
  host : PyVal
  endpoint_name : PyVal
  experiment_name : PyVal

/-- config.py lines 28-42: `DatabricksConfig.from_config`. -/
def DatabricksConfig.from_config (configData : PyVal) :
    Except String DatabricksConfig :=
  match pyCfgGet configData "databricks" (PyVal.vdict []) with
  | Except.error e => Except.error e
  | Except.ok db_config =>
    match pyCfgGet db_config "host"
        (PyVal.vstr "e2-demo-field-eng.cloud.databricks.com") with
    | Except.error e => Except.error e
    | Except.ok host0 =>
      match host0 with
      | PyVal.vstr h =>
        -- Add https:// if not present
        let host := if h.startsWith "http" then h else "https://" ++ h
        match pyCfgGet db_config "endpoint_name"
            (PyVal.vstr "mas-1ab024e9-endpoint") with
        | Except.error e => Except.error e
        | Except.ok en =>
          match pyCfgGet db_config "experiment_name"
              (PyVal.vstr "mas-1ab024e9-dev-experiment") with
          | Except.error e => Except.error e
          | Except.ok ex => Except.ok ⟨PyVal.vstr host, en, ex⟩
      | _ => Except.error "AttributeError"

/-- config.py lines 45-55: the `DatabaseConfig` record. -/
structure DatabaseConfig where
  instance_name : PyVal
  database_name : PyVal
  databricks_host : PyVal

/-- config.py lines 57-77: `DatabaseConfig.from_config`. -/
def DatabaseConfig.from_config (configData : PyVal) :
    Except String DatabaseConfig :=
  match pyCfgGet configData "database" (PyVal.vdict []) with
  | Except.error e => Except.error e
  | Except.ok db_config =>
    match pyCfgGet configData "databricks" (PyVal.vdict []) with
    | Except.error e => Except.error e
    | Except.ok databricks_config =>
      match pyCfgGet databricks_config "host" (PyVal.vstr "") with
      | Except.error e => Except.error e
      | Except.ok host0 =>
        let finish : PyVal → Except String DatabaseConfig := fun host =>
          match pyCfgGet db_config "instance_name" (PyVal.vstr "") with
          | Except.error e => Except.error e
          | Except.ok inst =>
            match pyCfgGet db_config "database_name"
                (PyVal.vstr "databricks_postgres") with
            | Except.error e => Except.error e
            | Except.ok dbn => Except.ok ⟨inst, dbn, host⟩
        -- if host and not host.startswith("http"): host = f"https://{host}"
        if pyTruthy host0 then
          match host0 with
          | PyVal.vstr h =>
            finish (if h.startsWith "http" then PyVal.vstr h
              else PyVal.vstr ("https://" ++ h))
          | _ => Except.error "AttributeError"
        else finish host0

/-- config.py lines 80-85: the `AppConfig` record. -/
structure AppConfig where
  title : PyVal
  layout : PyVal

/-- config.py lines 87-95: `AppConfig.from_config`. -/
def AppConfig.from_config (configData : PyVal) : Except String AppConfig :=
  match pyCfgGet configData "app" (PyVal.vdict []) with
  | Except.error e => Except.error e
  | Except.ok app_config =>
    match pyCfgGet app_config "title" (PyVal.vstr "OSC Market Intelligence") with
    | Except.error e => Except.error e
    | Except.ok title =>
      match pyCfgGet app_config "layout" (PyVal.vstr "wide") with
      | Except.error e => Except.error e
      | Except.ok layout => Except.ok ⟨title, layout⟩

/-- The full configuration load: `CONFIG_DATA = load_config_file()` at
import, then the three `from_config` constructors.  `env` carries the
process environment. -/
def loadConfigs (fileData : Option PyVal) (env : List (String × String)) :
    Except String (DatabricksConfig × DatabaseConfig × AppConfig) :=
  let configData := load_config_file fileData
  match DatabricksConfig.from_config configData with
  | Except.error e => Except.error e
  | Except.ok c1 =>
    match DatabaseConfig.from_config configData with
    | Except.error e => Except.error e
    | Except.ok c2 =>
      match AppConfig.from_config configData with
      | Except.error e => Except.error e
      | Except.ok c3 => Except.ok (c1, c2, c3)

/-! ## Persistence layer (src/src/database.py)

SQL execution is an oracle `execSql : query → params → Except String
(List PyVal)` returning the rows a subsequent fetch would see (`error`
models `cursor.execute` raising).  The SQL text is kept as in the
source, with the triple-quoted literals collapsed to single lines. -/

/-- Observable database-side effects of a persistence helper. -/
inductive DbEvent where
  | genCredential (requestId : String) (instanceNames : List PyVal)
  | connect (host : String) (dbname : PyVal) (user : String)
      (password : String) (sslmode : String)
  | sqlExec (query : String) (params : List PyVal)
  | commitEv
  | closeEv

/-- The per-call external outcomes `get_connection` consumes: the fresh
`uuid.uuid4()` request id, the DNS name returned by
`get_database_instance`, the token of the generated credential, and the
resolved database username (`none` when no service-principal id could be
determined from the environment, the client config or the database
config; the SDK calls themselves are modelled as succeeding). -/
structure ConnEnv where
  requestUuid : String
  readWriteDns : String
  credentialToken : String
  dbUsername : Option String

/-- database.py lines 77-214: the `get_connection` context manager
applied to a `with`-body, the body being given by its result and its own
event trace.  The credential is generated (line 123) before username
resolution can fail (line 192); `conn.close()` runs in the `finally`
whether or not the body raises. -/
def get_connection {α : Type} (config : DatabaseConfig) (env : ConnEnv)
    (body : Except String α × List DbEvent) :
    Except String α × List DbEvent :=
  if pyTruthy config.instance_name = false then
    (Except.error "ValueError: Database instance_name not configured", [])
  else
    match env.dbUsername with
    | none =>
      (Except.error "ValueError: could not determine service principal",
        [DbEvent.genCredential env.requestUuid [config.instance_name]])
    | some user =>
      (body.1,
        DbEvent.genCredential env.requestUuid [config.instance_name]
          :: DbEvent.connect env.readWriteDns config.database_name user
              env.credentialToken "require"
          :: body.2 ++ [DbEvent.closeEv])

/-- database.py lines 221-229: the body of `create_conversation`
(INSERT ... RETURNING id, `fetchone()[0]`, commit). -/
def create_conversation_body
    (execSql : String → List PyVal → Except String (List PyVal))
    (user_id : PyVal) (mlflow_trace_id : PyVal) :
    Except String PyVal × List DbEvent :=
  let q := "INSERT INTO conversations (user_id, mlflow_trace_id) VALUES (%s, %s) RETURNING id"
  match execSql q [user_id, mlflow_trace_id] with
  | Except.error e => (Except.error e, [DbEvent.sqlExec q [user_id, mlflow_trace_id]])
  | Except.ok rows =>
    match rows with
    | [] =>
      -- fetchone() returned None; None[0] raises
      (Except.error "TypeError", [DbEvent.sqlExec q [user_id, mlflow_trace_id]])
    | row :: _ =>
      match row with
      | PyVal.vlist (v :: _) =>
        (Except.ok v,
          [DbEvent.sqlExec q [user_id, mlflow_trace_id], DbEvent.commitEv])
      | _ => (Except.error "TypeError", [DbEvent.sqlExec q [user_id, mlflow_trace_id]])

/-- database.py lines 217-229: `create_conversation`. -/
def create_conversation (config : DatabaseConfig) (env : ConnEnv)
    (execSql : String → List PyVal → Except String (List PyVal))
    (user_id : PyVal) (mlflow_trace_id : PyVal) :
    Except String PyVal × List DbEvent :=
  get_connection config env (create_conversation_body execSql user_id mlflow_trace_id)

/-- database.py lines 236-242: the body of `update_conversation_trace`. -/
def update_conversation_trace_body
    (execSql : String → List PyVal → Except String (List PyVal))
    (conversation_id : PyVal) (mlflow_trace_id : PyVal) :
    Except String Unit × List DbEvent :=
  let q := "UPDATE conversations SET mlflow_trace_id = %s WHERE id = %s"
  match execSql q [mlflow_trace_id, conversation_id] with
  | Except.error e => (Except.error e, [DbEvent.sqlExec q [mlflow_trace_id, conversation_id]])
  | Except.ok _ =>
    (Except.ok (), [DbEvent.sqlExec q [mlflow_trace_id, conversation_id], DbEvent.commitEv])

/-- database.py lines 232-242: `update_conversation_trace`. -/
def update_conversation_trace (config : DatabaseConfig) (env : ConnEnv)
    (execSql : String → List PyVal → Except String (List PyVal))
    (conversation_id : PyVal) (mlflow_trace_id : PyVal) :
    Except String Unit × List DbEvent :=
  get_connection config env
    (update_conversation_trace_body execSql conversation_id mlflow_trace_id)

/-- database.py lines 256-269: the body of `add_message`. -/
def add_message_body
    (execSql : String → List PyVal → Except String (List PyVal))
    (conversation_id user_id question answer status query_id trace_id : PyVal) :
    Except String PyVal × List DbEvent :=
  let q := "INSERT INTO messages (conversation_id, user_id, question, answer, status, query_id, trace_id) VALUES (%s, %s, %s, %s, %s, %s, %s) RETURNING id"
  let ps := [conversation_id, user_id, question, answer, status, query_id, trace_id]
  match execSql q ps with
  | Except.error e => (Except.error e, [DbEvent.sqlExec q ps])
  | Except.ok rows =>
    match rows with
    | [] => (Except.error "TypeError", [DbEvent.sqlExec q ps])
    | row :: _ =>
      match row with
      | PyVal.vlist (v :: _) =>
        (Except.ok v, [DbEvent.sqlExec q ps, DbEvent.commitEv])
      | _ => (Except.error "TypeError", [DbEvent.sqlExec q ps])

/-- database.py lines 245-269: `add_message`. -/
def add_message (config : DatabaseConfig) (env : ConnEnv)
    (execSql : String → List PyVal → Except String (List PyVal))
    (conversation_id user_id question answer status query_id trace_id : PyVal) :
    Except String PyVal × List DbEvent :=
  get_connection config env
    (add_message_body execSql conversation_id user_id question answer status
      query_id trace_id)

/-- database.py lines 281-290: the SET clauses and parameters that
`update_message` assembles from its optional arguments. -/
def update_message_updates (answer status : Option PyVal) :
    List String × List PyVal :=
  let u0 : List String := []
  let p0 : List PyVal := []
  let up1 :=
    match answer with
    | some a => (u0 ++ ["answer = %s"], p0 ++ [a])
    | none => (u0, p0)
  match status with
  | some s => (up1.1 ++ ["status = %s"], up1.2 ++ [s])
  | none => up1

/-- database.py lines 281-298: the body of `update_message`; when both
arguments are `None` no statement is executed and nothing is
committed. -/
def update_message_body
    (execSql : String → List PyVal → Except String (List PyVal))
    (message_id : PyVal) (answer status : Option PyVal) :
    Except String Unit × List DbEvent :=
  let up := update_message_updates answer status
  if up.1.isEmpty then (Except.ok (), [])
  else
    let q := "UPDATE messages SET "
      ++ String.intercalate ", " (up.1 ++ ["updated_at = CURRENT_TIMESTAMP"])
      ++ " WHERE id = %s"
    match execSql q (up.2 ++ [message_id]) with
    | Except.error e => (Except.error e, [DbEvent.sqlExec q (up.2 ++ [message_id])])
    | Except.ok _ =>
      (Except.ok (), [DbEvent.sqlExec q (up.2 ++ [message_id]), DbEvent.commitEv])

/-- database.py lines 272-298: `update_message`. -/
def update_message (config : DatabaseConfig) (env : ConnEnv)
    (execSql : String → List PyVal → Except String (List PyVal))
    (message_id : PyVal) (answer status : Option PyVal) :
    Except String Unit × List DbEvent :=
  get_connection config env (update_message_body execSql message_id answer status)

/-- database.py lines 303-314: the body of `get_conversation_messages`. -/
def get_conversation_messages_body
    (execSql : String → List PyVal → Except String (List PyVal))
    (conversation_id : PyVal) :
    Except String (List PyVal) × List DbEvent :=
  let q := "SELECT id, question, answer, status, query_id, created_at, updated_at FROM messages WHERE conversation_id = %s ORDER BY created_at ASC"
  match execSql q [conversation_id] with
  | Except.error e => (Except.error e, [DbEvent.sqlExec q [conversation_id]])
  | Except.ok rows => (Except.ok rows, [DbEvent.sqlExec q [conversation_id]])

/-- database.py lines 301-314: `get_conversation_messages`. -/
def get_conversation_messages (config : DatabaseConfig) (env : ConnEnv)
    (execSql : String → List PyVal → Except String (List PyVal))
    (conversation_id : PyVal) :
    Except String (List PyVal) × List DbEvent :=
  get_connection config env (get_conversation_messages_body execSql conversation_id)

/-- database.py lines 319-331: the body of `get_message_by_query_id`
(`dict(row) if row else None`). -/
def get_message_by_query_id_body
    (execSql : String → List PyVal → Except String (List PyVal))
    (query_id : PyVal) :
    Except String PyVal × List DbEvent :=
  let q := "SELECT id, conversation_id, question, answer, status, query_id, created_at, updated_at FROM messages WHERE query_id = %s"
  match execSql q [query_id] with
  | Except.error e => (Except.error e, [DbEvent.sqlExec q [query_id]])
  | Except.ok rows =>
    match rows with
    | [] => (Except.ok PyVal.vnone, [DbEvent.sqlExec q [query_id]])
    | row :: _ => (Except.ok row, [DbEvent.sqlExec q [query_id]])

/-- database.py lines 317-331: `get_message_by_query_id`. -/
def get_message_by_query_id (config : DatabaseConfig) (env : ConnEnv)
    (execSql : String → List PyVal → Except String (List PyVal))
    (query_id : PyVal) :
    Except String PyVal × List DbEvent :=
  get_connection config env (get_message_by_query_id_body execSql query_id)

/-- database.py lines 336-349: the body of `get_user_conversations`. -/
def get_user_conversations_body
    (execSql : String → List PyVal → Except String (List PyVal))
    (user_id : PyVal) :
    Except String (List PyVal) × List DbEvent :=
  let q := "SELECT c.id, c.created_at, COUNT(m.id) as message_count FROM conversations c LEFT JOIN messages m ON c.id = m.conversation_id WHERE c.user_id = %s GROUP BY c.id, c.created_at ORDER BY c.created_at DESC"
  match execSql q [user_id] with
  | Except.error e => (Except.error e, [DbEvent.sqlExec q [user_id]])
  | Except.ok rows => (Except.ok rows, [DbEvent.sqlExec q [user_id]])

/-- database.py lines 334-349: `get_user_conversations`. -/
def get_user_conversations (config : DatabaseConfig) (env : ConnEnv)
    (execSql : String → List PyVal → Except String (List PyVal))
    (user_id : PyVal) :
    Except String (List PyVal) × List DbEvent :=
  get_connection config env (get_user_conversations_body execSql user_id)

/-- Events a `with`-body may emit itself (SQL execution and commits;
never credential generation, connection or close). -/
def isBodyEvent : DbEvent → Bool
  | DbEvent.sqlExec _ _ => true
  | DbEvent.commitEv => true
  | _ => false

/-- `true` iff the trace executes some SQL statement or commit. -/
def hasSqlEvent (evs : List DbEvent) : Bool := evs.any isBodyEvent

/-- The event trace `get_connection` produces around a body trace when
the instance name is configured and a username was resolved. -/
def wrappedTrace (config : DatabaseConfig) (env : ConnEnv) (user : String)
    (evs : List DbEvent) : List DbEvent :=
  DbEvent.genCredential env.requestUuid [config.instance_name]
    :: DbEvent.connect env.readWriteDns config.database_name user
        env.credentialToken "require"
    :: evs ++ [DbEvent.closeEv]

/-! ### The messages table (for the frame claim C9)

Timestamps are abstract instants (`Int`); `now` stands for the value of
`CURRENT_TIMESTAMP` during the update. -/

/-- One row of the `messages` table. -/
structure MsgRow where
  id : Int
  conversation_id : PyVal
  user_id : PyVal
  question : PyVal
  answer : PyVal
  status : PyVal
  query_id : PyVal
  trace_id : PyVal
  created_at : Int
  updated_at : Int

/-- Application of one SET clause emitted by `update_message` to a row;
`params` are the remaining positional parameters. -/
def applySet (now : Int) (r : MsgRow) (clause : String)
    (params : List PyVal) : MsgRow × List PyVal :=
  if clause = "answer = %s" then
    ({ r with answer := params.headD PyVal.vnone }, params.tail)
  else if clause = "status = %s" then
    ({ r with status := params.headD PyVal.vnone }, params.tail)
  else if clause = "updated_at = CURRENT_TIMESTAMP" then
    ({ r with updated_at := now }, params)
  else (r, params)

/-- Sequential application of SET clauses to a row. -/
def applySets (now : Int) : MsgRow → List String → List PyVal → MsgRow
  | r, [], _ => r
  | r, c :: cs, ps =>
    let rp := applySet now r c ps
    applySets now rp.1 cs rp.2

/-- Standard SQL semantics of the statement `update_message` builds:
`UPDATE messages SET <clauses> WHERE id = %s`.  Returns the updated
table and whether a statement was executed at all. -/
def applyUpdateMessage (now : Int) (message_id : Int)
    (answer status : Option PyVal) (table : List MsgRow) :
    List MsgRow × Bool :=
  let up := update_message_updates answer status
  if up.1.isEmpty then (table, false)
  else
    (table.map (fun r =>
      if r.id = message_id then
        applySets now r (up.1 ++ ["updated_at = CURRENT_TIMESTAMP"]) up.2
      else r), true)

/-! ## Report generator (src/src/pdf_generator.py)

`_clean_text_for_pdf` (lines 23-58) is embedded on `List Char`, one
regex substitution per pass, in source order.  The `re.MULTILINE`
`^`-anchored substitutions are applied per line, with `\s` the
whitespace class minus the newline; this deliberately treats a header
marker whose `\s+` run crosses a newline (such as `"##\n\nabc"`, where
CPython lets the match span lines) as no match — on every line-local
input the embedding agrees with CPython character for character.  The
lazy groups `(.+?)` are rendered by shortest-match scanners.  `boldSub`
and `pipeSub` use a fuel argument (the input length; at least one input
character is consumed per unit) purely as a termination device;
exhausted fuel returns the remaining input unchanged. -/

/-- `text.replace(c, rep)` for a single-character pattern. -/
def replaceChar (c : Char) (rep : List Char) : List Char → List Char
  | [] => []
  | d :: rest => (if d = c then rep else [d]) ++ replaceChar c rep rest

/-- pdf_generator.py lines 33-35: escape `&`, `<`, `>` (in that
order). -/
def escapeXmlChars (cs : List Char) : List Char :=
  replaceChar '>' ("&gt;".data)
    (replaceChar '<' ("&lt;".data)
      (replaceChar '&' ("&amp;".data) cs))

/-- Lazy body of `\*\*(.+?)\*\*`: the shortest non-empty newline-free
capture followed by a closing `**`; returns the capture and the text
after the closing delimiter. -/
def boldCap : List Char → Option (List Char × List Char)
  | [] => none
  | c :: rest =>
    if c = '\n' then none
    else
      match rest with
      | '*' :: '*' :: rest2 => some ([c], rest2)
      | _ => (boldCap rest).map (fun p => (c :: p.1, p.2))

/-- pdf_generator.py line 38: `re.sub(r"\*\*(.+?)\*\*", r"<b>\1</b>")`,
scanning left to right. -/
def boldSubAux : Nat → List Char → List Char
  | 0, cs => cs
  | n + 1, cs =>
    match cs with
    | [] => []
    | '*' :: '*' :: rest =>
      (match boldCap rest with
       | some (cap, rest2) =>
         '<' :: 'b' :: '>' :: cap ++ ('<' :: '/' :: 'b' :: '>' :: boldSubAux n rest2)
       | none => '*' :: boldSubAux n ('*' :: rest))
    | c :: rest => c :: boldSubAux n rest

/-- The bold substitution with enough fuel for its input. -/
def boldSub (cs : List Char) : List Char := boldSubAux cs.length cs

/-- The line structure `re.MULTILINE` anchors against. -/
def splitLines : List Char → List (List Char)
  | [] => [[]]
  | c :: rest =>
    if c = '\n' then [] :: splitLines rest
    else
      match splitLines rest with
      | [] => [[c]]
      | l :: ls => (c :: l) :: ls

/-- Inverse of `splitLines`. -/
def joinLines : List (List Char) → List Char
  | [] => []
  | [l] => l
  | l :: ls => l ++ '\n' :: joinLines ls

/-- A per-line substitution applied under the line structure. -/
def mapLines (f : List Char → List Char) (cs : List Char) : List Char :=
  joinLines ((splitLines cs).map f)

/-- `\s` within one line (no newline can occur inside a line). -/
def isWsChar (c : Char) : Bool :=
  c = ' ' || c = '\t' || c = '\r' || c = '\x0b' || c = '\x0c'

/-- pdf_generator.py line 41 on one line:
`re.sub(r"^##\s+(.+?)$", r"<b>\1</b>")`.  When the line is `##` plus
whitespace only, backtracking makes `(.+?)` capture the last whitespace
character (so at least two whitespace characters are needed). -/
def h2Line (l : List Char) : List Char :=
  match l with
  | '#' :: '#' :: rest =>
    let ws := rest.takeWhile isWsChar
    let cap := rest.dropWhile isWsChar
    if ws.isEmpty then l
    else if !cap.isEmpty then
      '<' :: 'b' :: '>' :: cap ++ ['<', '/', 'b', '>']
    else if 2 ≤ ws.length then
      ['<', 'b', '>', ws.getLastD ' ', '<', '/', 'b', '>']
    else l
  | _ => l

/-- pdf_generator.py line 42 on one line:
`re.sub(r"^#\s+(.+?)$", r"<b>\1</b>")`. -/
def h1Line (l : List Char) : List Char :=
  match l with
  | '#' :: rest =>
    let ws := rest.takeWhile isWsChar
    let cap := rest.dropWhile isWsChar
    if ws.isEmpty then l
    else if !cap.isEmpty then
      '<' :: 'b' :: '>' :: cap ++ ['<', '/', 'b', '>']
    else if 2 ≤ ws.length then
      ['<', 'b', '>', ws.getLastD ' ', '<', '/', 'b', '>']
    else l
  | _ => l

/-- pdf_generator.py line 45 on one line:
`re.sub(r"^[•\-\*]\s+", r"  • ")`. -/
def bulletLine (l : List Char) : List Char :=
  match l with
  | c :: rest =>
    if (c = '•' || c = '-' || c = '*') && !(rest.takeWhile isWsChar).isEmpty then
      ' ' :: ' ' :: '•' :: ' ' :: rest.dropWhile isWsChar
    else l
  | [] => []

/-- pdf_generator.py line 48 on one line:
`re.sub(r"^\d+\.\s+", lambda m: f"  \x7bm.group(0)\x7d")` — the matched
prefix is kept and two spaces are prepended. -/
def numLine (l : List Char) : List Char :=
  let ds := l.takeWhile Char.isDigit
  let rest := l.dropWhile Char.isDigit
  if !ds.isEmpty then
    match rest with
    | '.' :: rest2 =>
      if !(rest2.takeWhile isWsChar).isEmpty then ' ' :: ' ' :: l else l
    | _ => l
  else l

/-- pdf_generator.py line 51: `text.replace("\n\n", "<br/><br/>")`
(leftmost, non-overlapping). -/
def nl2Sub : List Char → List Char
  | '\n' :: '\n' :: rest =>
    '<' :: 'b' :: 'r' :: '/' :: '>' :: '<' :: 'b' :: 'r' :: '/' :: '>' :: nl2Sub rest
  | c :: rest => c :: nl2Sub rest
  | [] => []

/-- pdf_generator.py line 52: `text.replace("\n", "<br/>")`. -/
def nl1Sub : List Char → List Char
  | '\n' :: rest => '<' :: 'b' :: 'r' :: '/' :: '>' :: nl1Sub rest
  | c :: rest => c :: nl1Sub rest
  | [] => []

/-- Lazy body of `\|(.+?)\|`: shortest non-empty newline-free capture up
to a closing pipe. -/
def pipeCap : List Char → Option (List Char × List Char)
  | [] => none
  | c :: rest =>
    if c = '\n' then none
    else
      match rest with
      | '|' :: rest2 => some ([c], rest2)
      | _ => (pipeCap rest).map (fun p => (c :: p.1, p.2))

/-- pdf_generator.py line 55: `re.sub(r"\|(.+?)\|", r"\1")`.  The markup
tags inserted by the earlier passes contain no pipe, so they are copied
atomically — character for character the same output as the plain
scan. -/
def pipeSubAux : Nat → List Char → List Char
  | 0, cs => cs
  | n + 1, cs =>
    match cs with
    | [] => []
    | '|' :: rest =>
      (match pipeCap rest with
       | some (cap, rest2) => cap ++ pipeSubAux n rest2
       | none => '|' :: pipeSubAux n rest)
    | '<' :: 'b' :: '>' :: rest => '<' :: 'b' :: '>' :: pipeSubAux n rest
    | '<' :: '/' :: 'b' :: '>' :: rest =>
      '<' :: '/' :: 'b' :: '>' :: pipeSubAux n rest
    | '<' :: 'b' :: 'r' :: '/' :: '>' :: rest =>
      '<' :: 'b' :: 'r' :: '/' :: '>' :: pipeSubAux n rest
    | c :: rest => c :: pipeSubAux n rest

/-- The pipe substitution with enough fuel for its input. -/
def pipeSub (cs : List Char) : List Char := pipeSubAux cs.length cs

/-- pdf_generator.py line 56: `re.sub(r"\-{3,}", "")` — maximal runs of
at least three hyphens are removed; `pending` counts the hyphen run in
progress. -/
def dashAux : Nat → List Char → List Char
  | pending, [] => if 3 ≤ pending then [] else List.replicate pending '-'
  | pending, c :: rest =>
    if c = '-' then dashAux (pending + 1) rest
    else
      (if 3 ≤ pending then [] else List.replicate pending '-')
        ++ c :: dashAux 0 rest

/-- The hyphen-run removal. -/
def dashSub (cs : List Char) : List Char := dashAux 0 cs

/-- pdf_generator.py lines 31-58: the transformation pipeline of
`_clean_text_for_pdf` after the emptiness check, in source order. -/
def cleanPipeline (cs : List Char) : List Char :=
  dashSub (pipeSub (nl1Sub (nl2Sub
    (mapLines numLine (mapLines bulletLine (mapLines h1Line (mapLines h2Line
      (boldSub (escapeXmlChars cs)))))))))

/-- pdf_generator.py lines 23-58: `_clean_text_for_pdf` on a string
(`if not text: return ""`, then the substitution pipeline). -/
def clean_text_for_pdf (s : String) : String :=
  if s = "" then "" else String.mk (cleanPipeline s.data)

/-- No angle bracket occurs in the text. -/
def noAngle (cs : List Char) : Bool :=
  cs.all (fun c => !(c == '<' || c == '>'))

/-- Every `<` in the text opens one of the markup tags `<b>`, `</b>`,
`<br/>` that `_clean_text_for_pdf` inserts, and every `>` closes one:
no stray angle bracket survives in the text. -/
def angleOk : List Char → Bool
  | [] => true
  | c :: r =>
    if c = '<' then
      match r with
      | 'b' :: '>' :: r2 => angleOk r2
      | '/' :: 'b' :: '>' :: r2 => angleOk r2
      | 'b' :: 'r' :: '/' :: '>' :: r2 => angleOk r2
      | _ => false
    else if c = '>' then false
    else angleOk r

/-- `_clean_text_for_pdf` applied to an arbitrary Python value, as the
report builder does with `msg.get(...)` results: falsy values yield
`""`, truthy non-strings fail on `.replace` (`AttributeError`). -/
def cleanValForPdf (v : PyVal) : Except String String :=
  if pyTruthy v = false then Except.ok ""
  else
    match v with
    | PyVal.vstr s => Except.ok (clean_text_for_pdf s)
    | _ => Except.error "AttributeError"

/-- The flowable elements the report builder appends; paragraphs carry
their text and the name of the style they are rendered with. -/
inductive Flowable where
  | para (text : String) (style : String)
  | spacer
  | image (path : String)
  | tbl

/-- pdf_generator.py lines 224-227: the messages a report includes —
`[messages[-1]]` for a `latest` report on a non-empty list, all messages
otherwise. -/
def messages_to_include (report_type : String)
    (messages : List (List (String × PyVal))) :
    List (List (String × PyVal)) :=
  if report_type = "latest" then
    match messages.getLast? with
    | some m => [m]
    | none => messages
  else messages

/-- pdf_generator.py lines 250-254: one body paragraph (with trailing
spacer) per non-blank split of the answer text. -/
def answerFlow (paragraphs : List String) : List Flowable :=
  (paragraphs.map
    (fun p => [Flowable.para p "CustomBody", Flowable.spacer])).flatten

/-- pdf_generator.py lines 256-268: the separator between messages,
present except after the last one. -/
def sepFlow (idx total : Nat) : List Flowable :=
  if idx < total then [Flowable.spacer, Flowable.tbl, Flowable.spacer] else []

/-- pdf_generator.py lines 230-268: the flowables appended for one
included message (`idx` counts from 1). -/
def msgSection (report_type : String) (total idx : Nat)
    (msg : List (String × PyVal)) : Except String (List Flowable) :=
  let qheading :=
    if report_type = "full" then "Question " ++ toString idx else "Question"
  match cleanValForPdf ((lookupStr "question" msg).getD (PyVal.vstr "")) with
  | Except.error e => Except.error e
  | Except.ok question_text =>
    let aheading :=
      if report_type = "full" then "Answer " ++ toString idx else "Answer"
    match cleanValForPdf
        ((lookupStr "answer" msg).getD (PyVal.vstr "No answer available")) with
    | Except.error e => Except.error e
    | Except.ok answer_text =>
      let answer_paragraphs :=
        (answer_text.splitOn "<br/><br/>").filter (fun p => p.trim ≠ "")
      Except.ok
        ([Flowable.para qheading "CustomHeading",
          Flowable.para question_text "CustomBody", Flowable.spacer,
          Flowable.para aheading "CustomHeading"]
          ++ answerFlow answer_paragraphs
          ++ sepFlow idx total)

/-- pdf_generator.py lines 230-268: the message loop,
`enumerate(messages_to_include, 1)`. -/
def renderFrom (report_type : String) (total : Nat) :
    Nat → List (List (String × PyVal)) → Except String (List Flowable)
  | _, [] => Except.ok []
  | idx, m :: rest =>
    match msgSection report_type total idx m with
    | Except.error e => Except.error e
    | Except.ok s =>
      match renderFrom report_type total (idx + 1) rest with
      | Except.error e => Except.error e
      | Except.ok r => Except.ok (s ++ r)

/-- pdf_generator.py lines 61-291: `create_pdf_report`, as the list of
flowables it builds.  `logoExists` is whether the logo file is present
on disk and `dateStr` the formatted current time (both external
inputs). -/
def create_pdf_report (title : String) (conversation_id : Option Int)
    (trace_id : Option String) (messages : List (List (String × PyVal)))
    (user_name : Option String) (logoExists : Bool) (report_type : String)
    (dateStr : String) : Except String (List Flowable) :=
  let logoPart :=
    if logoExists then [Flowable.image "logo", Flowable.spacer] else []
  let metadata_data :=
    (match user_name with
     | some u => if u ≠ "" then [("User:", u)] else []
     | none => [])
    ++ (match conversation_id with
        | some cid => if cid ≠ 0 then [("Conversation ID:", toString cid)] else []
        | none => [])
    ++ (match trace_id with
        | some t => if t ≠ "" then [("Trace ID:", t)] else []
        | none => [])
  let metaPart :=
    if metadata_data.isEmpty then [] else [Flowable.tbl, Flowable.spacer]
  let inc := messages_to_include report_type messages
  match renderFrom report_type inc.length 1 inc with
  | Except.error e => Except.error e
  | Except.ok body =>
    Except.ok (logoPart
      ++ [Flowable.para title "CustomTitle", Flowable.spacer,
          Flowable.para ("Generated: " ++ dateStr) "CustomSubtitle"]
      ++ metaPart
      ++ [Flowable.tbl, Flowable.spacer]
      ++ body
      ++ [Flowable.spacer,
          Flowable.para
            "Ontario Securities Commission - Market Surveillance Analyst<br/>Confidential Report"
            "Footer"])

/-- The texts of the heading-styled paragraphs of a flowable list. -/
def headingTexts (fs : List Flowable) : List String :=
  fs.filterMap (fun f =>
    match f with
    | Flowable.para t st => if st = "CustomHeading" then some t else none
    | _ => none)

/-- The texts of the body-styled paragraphs of a flowable list. -/
def bodyTexts (fs : List Flowable) : List String :=
  fs.filterMap (fun f =>
    match f with
    | Flowable.para t st => if st = "CustomBody" then some t else none
    | _ => none)

/-- A value `_clean_text_for_pdf` accepts without raising: falsy, or a
string. -/
def canClean (v : PyVal) : Bool :=
  !pyTruthy v
  || (match v with
      | PyVal.vstr _ => true
      | _ => false)

/-- A message dict whose question and answer fields clean without
raising. -/
def msgOk (m : List (String × PyVal)) : Bool :=
  canClean ((lookupStr "question" m).getD (PyVal.vstr ""))
  && canClean ((lookupStr "answer" m).getD (PyVal.vstr "No answer available"))

/-- The cleaned question text of a message. -/
def cleanedQuestion (m : List (String × PyVal)) : String :=
  match cleanValForPdf ((lookupStr "question" m).getD (PyVal.vstr "")) with
  | Except.ok s => s
  | Except.error _ => ""

/-- The non-blank cleaned answer paragraphs of a message. -/
def answerParas (m : List (String × PyVal)) : List String :=
  match cleanValForPdf
      ((lookupStr "answer" m).getD (PyVal.vstr "No answer available")) with
  | Except.ok s => (s.splitOn "<br/><br/>").filter (fun p => p.trim ≠ "")
  | Except.error _ => []

/-- All body-paragraph texts one message contributes to the report. -/
def msgBodyTexts (m : List (String × PyVal)) : List String :=
  cleanedQuestion m :: answerParas m

/-- Concrete database config fixture used by claim witnesses. -/
def cfgW : DatabaseConfig :=
  ⟨PyVal.vstr "mi-instance", PyVal.vstr "databricks_postgres",
    PyVal.vstr "https://host"⟩

/-- Concrete connection environment fixture used by claim witnesses. -/
def envW : ConnEnv := ⟨"req-uuid-1", "db.dns", "temp-token", some "sp-uuid"⟩

/-- Concrete SQL oracle fixture used by claim witnesses. -/
def execW : String → List PyVal → Except String (List PyVal) :=
  fun _ _ => Except.ok [PyVal.vlist [PyVal.vint 1]]

/-- Concrete messages-table row fixture used by claim witnesses. -/
def rowW : MsgRow :=
  ⟨1, PyVal.vint 7, PyVal.vstr "u", PyVal.vstr "q", PyVal.vnone,
    PyVal.vstr "pending", PyVal.vnone, PyVal.vnone, 100, 100⟩

/-- Concrete stored-message list fixture used by claim witnesses. -/
def msgsW : List (List (String × PyVal)) :=
  [[("question", PyVal.vstr "Q1"), ("answer", PyVal.vstr "A1")],
   [("question", PyVal.vstr "Q2")]]

/-! ## Telemetry / feedback logger (src/src/mlflow_tracing.py)

The MLflow feedback call (`mlflow.log_feedback` respectively
`mlflow.log_expectation`) is an external effect; its behaviour on this
run is passed in as an oracle of type `Except String Unit` (`error`
models the call raising).  The identifiers that the code merely forwards
to MLflow are kept as arguments for faithfulness. -/

/-- Lines 60-95 of mlflow_tracing.py: `log_user_satisfaction`. -/
def log_user_satisfaction (logFeedback : Except String Unit)
    (trace_id : String) (satisfied : Bool) (user_id : String)
    (message_id : Option Int) (use_mlflow : Bool) : Except String Bool :=
  -- try:
  let tryBody : Except String Bool :=
    if use_mlflow then
      match logFeedback with
      | Except.ok _ => Except.ok true
      | Except.error e => Except.error e
    else Except.ok false
  -- except Exception: return False
  match tryBody with
  | Except.ok b => Except.ok b
  | Except.error _ => Except.ok false

/-- Lines 98-131 of mlflow_tracing.py: `log_review_request`. -/
def log_review_request (logFeedback : Except String Unit)
    (trace_id : String) (user_id : String)
    (message_id : Option Int) (use_mlflow : Bool) : Except String Bool :=
  let tryBody : Except String Bool :=
    if use_mlflow then
      match logFeedback with
      | Except.ok _ => Except.ok true
      | Except.error e => Except.error e
    else Except.ok false
  match tryBody with
  | Except.ok b => Except.ok b
  | Except.error _ => Except.ok false

/-- Lines 134-169 of mlflow_tracing.py: `log_correction`. -/
def log_correction (logExpectation : Except String Unit)
    (trace_id : String) (correction_text : String) (user_id : String)
    (message_id : Option Int) (use_mlflow : Bool) : Except String Bool :=
  let tryBody : Except String Bool :=
    if use_mlflow then
      match logExpectation with
      | Except.ok _ => Except.ok true
      | Except.error e => Except.error e
    else Except.ok false
  match tryBody with
  | Except.ok b => Except.ok b
  | Except.error _ => Except.ok false

/-- C1: for every trace id, user id, flag value and behaviour of the
underlying MLflow feedback call (including raising), each of
`log_user_satisfaction`, `log_review_request` and `log_correction`
returns normally; the returned value is `True` exactly when
`use_mlflow` is set and the MLflow call succeeds, and `False` when
`use_mlflow` is unset or the MLflow call raises. -/
theorem c1_feedback_logging_never_raises
    (logFeedback logExpectation : Except String Unit)
    (trace_id user_id correction_text : String) (satisfied : Bool)
    (message_id : Option Int) (use_mlflow : Bool) :
    log_user_satisfaction logFeedback trace_id satisfied user_id message_id use_mlflow
      = Except.ok (use_mlflow && exceptSucceeds logFeedback)
    ∧ log_review_request logFeedback trace_id user_id message_id use_mlflow
      = Except.ok (use_mlflow && exceptSucceeds logFeedback)
    ∧ log_correction logExpectation trace_id correction_text user_id message_id use_mlflow
      = Except.ok (use_mlflow && exceptSucceeds logExpectation) := by
  cases use_mlflow <;> cases logFeedback <;> cases logExpectation <;>
    simp [log_user_satisfaction, log_review_request, log_correction, exceptSucceeds]

/-! ### Serializability lemmas for `format_response` -/

theorem serializableB_vdict (es : List (String × PyVal)) :
    serializableB (PyVal.vdict es) = (jsonDumps.jsonDumpsEntries es).isSome := by
  cases h : jsonDumps.jsonDumpsEntries es <;>
    simp [serializableB, jsonDumps, h]

theorem serializableB_vlist (xs : List PyVal) :
    serializableB (PyVal.vlist xs) = (jsonDumps.jsonDumpsList xs).isSome := by
  cases h : jsonDumps.jsonDumpsList xs <;>
    simp [serializableB, jsonDumps, h]

theorem serializableB_vdict_cons (k : String) (v : PyVal)
    (es : List (String × PyVal)) :
    serializableB (PyVal.vdict ((k, v) :: es))
      = (serializableB v && serializableB (PyVal.vdict es)) := by
  rw [serializableB_vdict, serializableB_vdict]
  cases h1 : jsonDumps v <;> cases h2 : jsonDumps.jsonDumpsEntries es <;>
    simp [jsonDumps.jsonDumpsEntries, h1, h2, serializableB, Option.bind]

theorem serializableB_vlist_cons (v : PyVal) (xs : List PyVal) :
    serializableB (PyVal.vlist (v :: xs))
      = (serializableB v && serializableB (PyVal.vlist xs)) := by
  rw [serializableB_vlist, serializableB_vlist]
  cases h1 : jsonDumps v <;> cases h2 : jsonDumps.jsonDumpsList xs <;>
    simp [jsonDumps.jsonDumpsList, h1, h2, serializableB, Option.bind]

theorem serializable_lookup (key : String) :
    ∀ (es : List (String × PyVal)) (v : PyVal),
      serializableB (PyVal.vdict es) = true → lookupStr key es = some v →
      serializableB v = true := by
  intro es
  induction es with
  | nil => intro v _ hl; simp [lookupStr] at hl
  | cons e rest ih =>
    intro v hser hl
    obtain ⟨k1, v1⟩ := e
    rw [serializableB_vdict_cons] at hser
    simp only [Bool.and_eq_true] at hser
    by_cases hk : k1 = key
    · simp [lookupStr, hk] at hl
      exact hl ▸ hser.1
    · simp [lookupStr, hk] at hl
      exact ih v hser.2 hl

theorem serializable_pairEntry (x : PyVal) (k : String) (v : PyVal)
    (hser : serializableB x = true) (hp : pairEntry x = some (k, v)) :
    serializableB v = true := by
  cases x with
  | vlist xs =>
    match xs, hp with
    | [PyVal.vstr k0, v0], hp =>
      simp [pairEntry] at hp
      rw [serializableB_vlist_cons, serializableB_vlist_cons] at hser
      simp only [Bool.and_eq_true] at hser
      exact hp.2 ▸ hser.2.1
  | vstr s => simp [pairEntry] at hp
  | vint n => simp [pairEntry] at hp
  | vbool b => simp [pairEntry] at hp
  | vnone => simp [pairEntry] at hp
  | vdict es => simp [pairEntry] at hp
  | vobj attrs => simp [pairEntry] at hp
  | vforeign t => simp [pairEntry] at hp

theorem serializable_pyToDict_vlist :
    ∀ (xs : List PyVal) (es : List (String × PyVal)),
      serializableB (PyVal.vlist xs) = true →
      pyToDict (PyVal.vlist xs) = some es →
      serializableB (PyVal.vdict es) = true := by
  intro xs
  induction xs with
  | nil =>
    intro es _ hd
    simp [pyToDict, pyToDictList] at hd
    subst hd; decide
  | cons x rest ih =>
    intro es hser hd
    rw [serializableB_vlist_cons] at hser
    simp only [Bool.and_eq_true] at hser
    simp only [pyToDict, pyToDictList] at hd
    cases hp : pairEntry x with
    | none => simp [hp] at hd
    | some kv =>
      obtain ⟨k, v⟩ := kv
      cases hrest : pyToDictList rest with
      | none => simp [hp, hrest] at hd
      | some restEs =>
        simp [hp, hrest] at hd
        rw [← hd, serializableB_vdict_cons]
        have h1 := serializable_pairEntry x k v hser.1 hp
        have h2 := ih restEs hser.2 (by simp [pyToDict, hrest])
        simp [h1, h2]

theorem serializable_safe (v : PyVal) (h : serializableB v = true) :
    safeResp v = true := by
  cases v with
  | vdict es => simpa [safeResp] using h
  | vlist xs =>
    simp only [safeResp]
    cases hd : pyToDict (PyVal.vlist xs) with
    | none => simp
    | some es => simpa using serializable_pyToDict_vlist xs es h hd
  | vobj attrs => simp [serializableB, jsonDumps] at h
  | vforeign t => simp [serializableB, jsonDumps] at h
  | vstr s => rfl
  | vint n => rfl
  | vbool b => rfl
  | vnone => rfl

theorem formatStageB_safe (jsonLoads : String → Option PyVal) (v : PyVal)
    (hl : ∀ s w, jsonLoads s = some w → serializableB w = true)
    (hs : safeResp v = true) :
    safeResp (formatStageB jsonLoads v) = true := by
  cases v with
  | vobj attrs => simp [safeResp] at hs
  | vdict es =>
    simp only [formatStageB, pyHasGet, if_true]
    cases hlp : lookupStr "predictions" es with
    | none => simp [pyGetD, hlp, pyBeq, hs]
    | some p =>
      simp only [pyGetD, hlp, Option.getD]
      by_cases h1 : pyBeq p PyVal.vnone
      · simp [h1, hs]
      · by_cases h2 : pyBeq p (PyVal.vdict es)
        · simp [h1, h2, hs]
        · have hpser : serializableB p = true :=
            serializable_lookup "predictions" es p (by simpa [safeResp] using hs) hlp
          simp only [h1, h2, Bool.not_false, Bool.and_self, if_true]
          cases p with
          | vstr s =>
            cases hload : jsonLoads s with
            | none => simp [hload, safeResp]
            | some w => simp [hload]; exact serializable_safe w (hl s w hload)
          | vint n => exact serializable_safe _ hpser
          | vbool b => exact serializable_safe _ hpser
          | vnone => exact serializable_safe _ hpser
          | vlist xs => exact serializable_safe _ hpser
          | vdict es2 => exact serializable_safe _ hpser
          | vobj attrs => exact serializable_safe _ hpser
          | vforeign t => exact serializable_safe _ hpser
  | vstr s => simpa [formatStageB, pyHasGet] using hs
  | vint n => simpa [formatStageB, pyHasGet] using hs
  | vbool b => simpa [formatStageB, pyHasGet] using hs
  | vnone => simpa [formatStageB, pyHasGet] using hs
  | vlist xs => simpa [formatStageB, pyHasGet] using hs
  | vforeign t => simpa [formatStageB, pyHasGet] using hs

theorem formatStageC_safe (w : PyVal) (hs : safeResp w = true) :
    (∃ s, formatStageC w = Sum.inr s)
    ∨ (∃ es, formatStageC w = Sum.inl (PyVal.vdict es)
        ∧ serializableB (PyVal.vdict es) = true) := by
  cases w with
  | vdict es =>
    right; exact ⟨es, rfl, by simpa [safeResp] using hs⟩
  | vobj attrs => simp [safeResp] at hs
  | vstr s =>
    by_cases h : s = ""
    · right
      refine ⟨[], ?_, by decide⟩
      simp [formatStageC, pyToDict, h]
    · left
      refine ⟨pyStr (PyVal.vstr s), ?_⟩
      simp [formatStageC, pyToDict, h]
  | vlist xs =>
    cases hd : pyToDict (PyVal.vlist xs) with
    | none =>
      left; exact ⟨pyStr (PyVal.vlist xs), by simp [formatStageC, hd]⟩
    | some es =>
      right
      refine ⟨es, by simp [formatStageC, hd], ?_⟩
      simpa [safeResp, hd] using hs
  | vint n => left; exact ⟨pyStr (PyVal.vint n), by simp [formatStageC, pyToDict]⟩
  | vbool b => left; exact ⟨pyStr (PyVal.vbool b), by simp [formatStageC, pyToDict]⟩
  | vnone => left; exact ⟨pyStr PyVal.vnone, by simp [formatStageC, pyToDict]⟩
  | vforeign t => left; exact ⟨pyStr (PyVal.vforeign t), by simp [formatStageC, pyToDict]⟩

theorem formatOutputBlock_vdict_ok (es : List (String × PyVal)) :
    ∃ r, formatOutputBlock (PyVal.vdict es) = Except.ok r := by
  unfold formatOutputBlock
  simp only [pyGetMethod]
  repeat' first
    | exact ⟨_, rfl⟩
    | split

theorem formatStageDtail_vdict_ok (es : List (String × PyVal))
    (h : serializableB (PyVal.vdict es) = true) :
    ∃ s, formatStageDtail (PyVal.vdict es) = Except.ok s := by
  obtain ⟨js, hjs⟩ := Option.isSome_iff_exists.mp h
  unfold formatStageDtail
  simp only [pyContains, pyIndex, hjs]
  cases ha : lookupStr "answer" es with
  | some a => simp [ha]
  | none =>
    cases hc : lookupStr "content" es with
    | some c => simp [ha, hc]
    | none => simp [ha, hc]

theorem formatStageDmid_vdict_ok (es : List (String × PyVal))
    (h : serializableB (PyVal.vdict es) = true) :
    ∃ s, formatStageDmid (PyVal.vdict es) = Except.ok s := by
  obtain ⟨t, ht⟩ := formatStageDtail_vdict_ok es h
  unfold formatStageDmid
  simp only [pyContains, pyIndex]
  cases hp : lookupStr "predictions" es with
  | some p => simp [hp]
  | none =>
    cases hc : lookupStr "choices" es with
    | none => simp [hp, hc, ht]
    | some choices =>
      cases hblk : formatChoicesBlock choices with
      | some s => simp [hp, hc, hblk]
      | none => simp [hp, hc, hblk, ht]

theorem formatStageD_vdict_ok (es : List (String × PyVal))
    (h : serializableB (PyVal.vdict es) = true) :
    ∃ s, formatStageD (PyVal.vdict es) = Except.ok s := by
  obtain ⟨r, hr⟩ := formatOutputBlock_vdict_ok es
  obtain ⟨m, hm⟩ := formatStageDmid_vdict_ok es h
  unfold formatStageD
  simp only [pyContains]
  cases ho : lookupStr "output" es with
  | none => simp [ho, hm]
  | some o =>
    cases r with
    | some s => simp [ho, hr]
    | none => simp [ho, hr, hm]

/-! ### Claim C2 -/

/-- C2 counterexample: on a dict holding a non-JSON-serializable SDK
object under an unrecognised key, `format_response` reaches the
`json.dumps` fallback and raises `TypeError`, so it does not hold of
every response value that it returns a string and never raises. -/
theorem c2_counterexample_format_response_raises :
    format_response (fun _ => none)
        (PyVal.vdict [("junk", PyVal.vforeign "SDKObject")])
      = Except.error "TypeError" := by rfl

/-- C2 (amended): for every response built only from dicts, lists,
strings, numbers, booleans and `None` — dicts with JSON-serializable
values, lists either not `dict(...)`-convertible or converting to such a
dict — and for every behaviour of the JSON parser that yields JSON
values, `format_response` returns a string and never raises.  (The
original claim fails only on responses that carry a non-JSON-serializable
object into the `json.dumps` fallback, see the counterexample.) -/
theorem c2_amended_format_response_total
    (jsonLoads : String → Option PyVal) (response : PyVal)
    (hl : ∀ s w, jsonLoads s = some w → serializableB w = true)
    (hs : safeResp response = true) :
    ∃ out, format_response jsonLoads response = Except.ok out := by
  unfold format_response
  cases ha : formatStageA response with
  | some s => exact ⟨s, rfl⟩
  | none =>
    have hb := formatStageB_safe jsonLoads response hl hs
    rcases formatStageC_safe _ hb with ⟨s, hc⟩ | ⟨es2, hc, hser⟩
    · rw [hc]; exact ⟨s, rfl⟩
    · rw [hc]; exact formatStageD_vdict_ok es2 hser

/-- C2 amended, witness: a concrete serializable dict on which the
guarantee evaluates. -/
theorem c2_amended_witness :
    ((∀ s w, (fun (_ : String) => (none : Option PyVal)) s = some w →
        serializableB w = true)
      ∧ safeResp (PyVal.vdict [("answer", PyVal.vstr "42")]) = true)
    ∧ ∃ out, format_response (fun _ => none)
        (PyVal.vdict [("answer", PyVal.vstr "42")]) = Except.ok out :=
  And.intro
    (And.intro (fun s w h => nomatch h) (by decide))
    (c2_amended_format_response_total (fun _ => none)
      (PyVal.vdict [("answer", PyVal.vstr "42")])
      (fun s w h => nomatch h) (by decide))

/-! ### Claim C6 -/

/-- C6: a dict response without `output` and `predictions` keys, whose
`choices` is a non-empty list whose first element is a dict carrying a
dict `message` with truthy `content`, is formatted as that content
converted to a string. -/
theorem c6_choices_message_content
    (jsonLoads : String → Option PyVal)
    (entries : List (String × PyVal)) (rest : List PyVal)
    (ces mes : List (String × PyVal)) (content : PyVal)
    (hout : lookupStr "output" entries = none)
    (hpred : lookupStr "predictions" entries = none)
    (hch : lookupStr "choices" entries
      = some (PyVal.vlist (PyVal.vdict ces :: rest)))
    (hmsg : lookupStr "message" ces = some (PyVal.vdict mes))
    (hcont : lookupStr "content" mes = some content)
    (htru : pyTruthy content = true) :
    format_response jsonLoads (PyVal.vdict entries)
      = Except.ok (pyStr content) := by
  unfold format_response formatStageA formatStageB formatStageC formatStageD
    formatStageDmid
  simp [getattrOpt, pyHasGet, pyGetD, hpred, pyBeq, pyContains, hout, hch,
    pyIndex, formatChoicesBlock, hmsg, hcont, htru]

/-- C6 witness: the chat-completions shape evaluated concretely. -/
theorem c6_witness :
    (lookupStr "output" [("choices", PyVal.vlist [PyVal.vdict
        [("message", PyVal.vdict [("content", PyVal.vstr "chat answer")])]])] = none
      ∧ pyTruthy (PyVal.vstr "chat answer") = true)
    ∧ format_response (fun _ => none)
        (PyVal.vdict [("choices", PyVal.vlist [PyVal.vdict
          [("message", PyVal.vdict [("content", PyVal.vstr "chat answer")])]])])
      = Except.ok (pyStr (PyVal.vstr "chat answer")) :=
  ⟨⟨rfl, rfl⟩,
    c6_choices_message_content (fun _ => none)
      [("choices", PyVal.vlist [PyVal.vdict
        [("message", PyVal.vdict [("content", PyVal.vstr "chat answer")])]])]
      [] [("message", PyVal.vdict [("content", PyVal.vstr "chat answer")])]
      [("content", PyVal.vstr "chat answer")] (PyVal.vstr "chat answer")
      rfl rfl rfl rfl rfl rfl⟩

/-! ### Claim C3 -/

/-- C3: when the streaming request setup or call raises,
`call_endpoint_stream` falls back to the non-streaming variant: it
returns a generator yielding exactly one chunk — `format_response`
applied to the `call_endpoint` result for the same question and
conversation history — and the returned trace id is `None`. -/
theorem c3_stream_fallback_to_sync
    (jsonLoads : String → Option PyVal)
    (apiStream : List (String × String) → Except String (List StreamEvent))
    (apiSync : List (String × String) → Except String PyVal)
    (uuid : String) (question : String)
    (conversation_history : Option (List HistMsg))
    (err : String) (resp : PyVal) (formatted : String)
    (hstream : apiStream (build_messages conversation_history question)
      = Except.error err)
    (hsync : call_endpoint apiSync question conversation_history
      = Except.ok resp)
    (hfmt : format_response jsonLoads resp = Except.ok formatted) :
    call_endpoint_stream jsonLoads apiStream apiSync uuid question
        conversation_history
      = Except.ok ([formatted], none) := by
  unfold call_endpoint_stream
  rw [hstream, hsync]
  simp [hfmt]

/-- C3 witness: a concrete failing stream with a succeeding sync call. -/
theorem c3_witness :
    ((fun (_ : List (String × String)) =>
        (Except.error "ConnectionError" : Except String (List StreamEvent)))
          (build_messages none "q") = Except.error "ConnectionError"
      ∧ call_endpoint
          (fun _ => Except.ok (PyVal.vdict [("answer", PyVal.vstr "hello")]))
          "q" none
        = Except.ok (PyVal.vdict [("answer", PyVal.vstr "hello")])
      ∧ format_response (fun _ => none)
          (PyVal.vdict [("answer", PyVal.vstr "hello")])
        = Except.ok "hello")
    ∧ call_endpoint_stream (fun _ => none)
        (fun _ => Except.error "ConnectionError")
        (fun _ => Except.ok (PyVal.vdict [("answer", PyVal.vstr "hello")]))
        "some-uuid" "q" none
      = Except.ok (["hello"], none) :=
  And.intro (And.intro rfl (And.intro rfl rfl))
    (c3_stream_fallback_to_sync (fun _ => none)
      (fun _ => Except.error "ConnectionError")
      (fun _ => Except.ok (PyVal.vdict [("answer", PyVal.vstr "hello")]))
      "some-uuid" "q" none "ConnectionError"
      (PyVal.vdict [("answer", PyVal.vstr "hello")]) "hello" rfl rfl rfl)

/-! ### Claim C5 -/

/-- C5: the configuration loader is a function of the configuration file
content together with the environment — equal file content and equal
environment yield equal `DatabricksConfig`, `DatabaseConfig` and
`AppConfig` records — and in fact the records do not depend on the
environment at all. -/
theorem c5_config_determined_by_file_and_env
    (f1 f2 : Option PyVal) (e1 e2 e3 : List (String × String))
    (hf : f1 = f2) (he : e1 = e2) :
    loadConfigs f1 e1 = loadConfigs f2 e2
    ∧ loadConfigs f1 e1 = loadConfigs f1 e3 := by
  subst hf; subst he
  exact ⟨rfl, rfl⟩

/-- C5 witness: concrete file content, two different environments. -/
theorem c5_witness :
    (some (PyVal.vdict [("app", PyVal.vdict [("title", PyVal.vstr "T")])])
        = some (PyVal.vdict [("app", PyVal.vdict [("title", PyVal.vstr "T")])])
      ∧ [("HOME", "/root")] = [("HOME", "/root")])
    ∧ (loadConfigs
        (some (PyVal.vdict [("app", PyVal.vdict [("title", PyVal.vstr "T")])]))
        [("HOME", "/root")]
      = loadConfigs
        (some (PyVal.vdict [("app", PyVal.vdict [("title", PyVal.vstr "T")])]))
        [("HOME", "/root")]
    ∧ loadConfigs
        (some (PyVal.vdict [("app", PyVal.vdict [("title", PyVal.vstr "T")])]))
        [("HOME", "/root")]
      = loadConfigs
        (some (PyVal.vdict [("app", PyVal.vdict [("title", PyVal.vstr "T")])]))
        [("SHELL", "/bin/sh"), ("LANG", "C")]) :=
  And.intro (And.intro rfl rfl)
    (c5_config_determined_by_file_and_env
      (some (PyVal.vdict [("app", PyVal.vdict [("title", PyVal.vstr "T")])]))
      (some (PyVal.vdict [("app", PyVal.vdict [("title", PyVal.vstr "T")])]))
      [("HOME", "/root")] [("HOME", "/root")]
      [("SHELL", "/bin/sh"), ("LANG", "C")] rfl rfl)

/-! ### Persistence-layer lemmas -/

theorem get_connection_trace {α : Type} (config : DatabaseConfig)
    (env : ConnEnv) (user : String) (body : Except String α × List DbEvent)
    (hinst : pyTruthy config.instance_name = true)
    (huser : env.dbUsername = some user) :
    get_connection config env body
      = (body.1, wrappedTrace config env user body.2) := by
  unfold get_connection wrappedTrace
  simp [hinst, huser]

theorem create_conversation_body_events
    (execSql : String → List PyVal → Except String (List PyVal))
    (a b : PyVal) :
    ((create_conversation_body execSql a b).2.all isBodyEvent) = true := by
  unfold create_conversation_body
  dsimp only
  repeat' split
  all_goals simp [isBodyEvent]

theorem update_conversation_trace_body_events
    (execSql : String → List PyVal → Except String (List PyVal))
    (a b : PyVal) :
    ((update_conversation_trace_body execSql a b).2.all isBodyEvent) = true := by
  unfold update_conversation_trace_body
  dsimp only
  repeat' split
  all_goals simp [isBodyEvent]

theorem add_message_body_events
    (execSql : String → List PyVal → Except String (List PyVal))
    (a b c d e f g : PyVal) :
    ((add_message_body execSql a b c d e f g).2.all isBodyEvent) = true := by
  unfold add_message_body
  dsimp only
  repeat' split
  all_goals simp [isBodyEvent]

theorem update_message_body_events
    (execSql : String → List PyVal → Except String (List PyVal))
    (a : PyVal) (ans st : Option PyVal) :
    ((update_message_body execSql a ans st).2.all isBodyEvent) = true := by
  unfold update_message_body
  dsimp only
  repeat' split
  all_goals simp [isBodyEvent]

theorem get_conversation_messages_body_events
    (execSql : String → List PyVal → Except String (List PyVal))
    (a : PyVal) :
    ((get_conversation_messages_body execSql a).2.all isBodyEvent) = true := by
  unfold get_conversation_messages_body
  dsimp only
  repeat' split
  all_goals simp [isBodyEvent]

theorem get_message_by_query_id_body_events
    (execSql : String → List PyVal → Except String (List PyVal))
    (a : PyVal) :
    ((get_message_by_query_id_body execSql a).2.all isBodyEvent) = true := by
  unfold get_message_by_query_id_body
  dsimp only
  repeat' split
  all_goals simp [isBodyEvent]

theorem get_user_conversations_body_events
    (execSql : String → List PyVal → Except String (List PyVal))
    (a : PyVal) :
    ((get_user_conversations_body execSql a).2.all isBodyEvent) = true := by
  unfold get_user_conversations_body
  dsimp only
  repeat' split
  all_goals simp [isBodyEvent]

/-! ### Claim C4 -/

/-- C4: with a configured instance and a resolved service principal,
every persistence helper's event trace is produced by `get_connection`:
it starts by generating a credential with the per-call fresh request id,
connects using the generated token as the password (no static
credential), and ends by closing the connection — for every behaviour of
the SQL oracle, in particular when the body raises; the body itself only
executes SQL and commits. -/
theorem c4_helpers_connection_discipline
    (config : DatabaseConfig) (env : ConnEnv) (user : String)
    (execSql : String → List PyVal → Except String (List PyVal))
    (v1 v2 v3 v4 v5 v6 v7 : PyVal) (ans st : Option PyVal)
    (hinst : pyTruthy config.instance_name = true)
    (huser : env.dbUsername = some user) :
    (∃ evs, (create_conversation config env execSql v1 v2).2
        = wrappedTrace config env user evs ∧ evs.all isBodyEvent = true)
    ∧ (∃ evs, (update_conversation_trace config env execSql v1 v2).2
        = wrappedTrace config env user evs ∧ evs.all isBodyEvent = true)
    ∧ (∃ evs, (add_message config env execSql v1 v2 v3 v4 v5 v6 v7).2
        = wrappedTrace config env user evs ∧ evs.all isBodyEvent = true)
    ∧ (∃ evs, (update_message config env execSql v1 ans st).2
        = wrappedTrace config env user evs ∧ evs.all isBodyEvent = true)
    ∧ (∃ evs, (get_conversation_messages config env execSql v1).2
        = wrappedTrace config env user evs ∧ evs.all isBodyEvent = true)
    ∧ (∃ evs, (get_message_by_query_id config env execSql v1).2
        = wrappedTrace config env user evs ∧ evs.all isBodyEvent = true)
    ∧ (∃ evs, (get_user_conversations config env execSql v1).2
        = wrappedTrace config env user evs ∧ evs.all isBodyEvent = true) := by
  refine ⟨⟨_, ?_, create_conversation_body_events execSql v1 v2⟩,
    ⟨_, ?_, update_conversation_trace_body_events execSql v1 v2⟩,
    ⟨_, ?_, add_message_body_events execSql v1 v2 v3 v4 v5 v6 v7⟩,
    ⟨_, ?_, update_message_body_events execSql v1 ans st⟩,
    ⟨_, ?_, get_conversation_messages_body_events execSql v1⟩,
    ⟨_, ?_, get_message_by_query_id_body_events execSql v1⟩,
    ⟨_, ?_, get_user_conversations_body_events execSql v1⟩⟩
  · unfold create_conversation
    rw [get_connection_trace config env user _ hinst huser]
  · unfold update_conversation_trace
    rw [get_connection_trace config env user _ hinst huser]
  · unfold add_message
    rw [get_connection_trace config env user _ hinst huser]
  · unfold update_message
    rw [get_connection_trace config env user _ hinst huser]
  · unfold get_conversation_messages
    rw [get_connection_trace config env user _ hinst huser]
  · unfold get_message_by_query_id
    rw [get_connection_trace config env user _ hinst huser]
  · unfold get_user_conversations
    rw [get_connection_trace config env user _ hinst huser]

/-- C4 witness: the connection discipline evaluated on concrete
fixtures. -/
theorem c4_witness :
    (pyTruthy cfgW.instance_name = true ∧ envW.dbUsername = some "sp-uuid")
    ∧ ((∃ evs, (create_conversation cfgW envW execW (PyVal.vstr "u") PyVal.vnone).2
        = wrappedTrace cfgW envW "sp-uuid" evs ∧ evs.all isBodyEvent = true)
    ∧ (∃ evs, (update_conversation_trace cfgW envW execW (PyVal.vstr "u") PyVal.vnone).2
        = wrappedTrace cfgW envW "sp-uuid" evs ∧ evs.all isBodyEvent = true)
    ∧ (∃ evs, (add_message cfgW envW execW (PyVal.vstr "u") PyVal.vnone PyVal.vnone
          PyVal.vnone PyVal.vnone PyVal.vnone PyVal.vnone).2
        = wrappedTrace cfgW envW "sp-uuid" evs ∧ evs.all isBodyEvent = true)
    ∧ (∃ evs, (update_message cfgW envW execW (PyVal.vstr "u")
          (some (PyVal.vstr "a")) none).2
        = wrappedTrace cfgW envW "sp-uuid" evs ∧ evs.all isBodyEvent = true)
    ∧ (∃ evs, (get_conversation_messages cfgW envW execW (PyVal.vstr "u")).2
        = wrappedTrace cfgW envW "sp-uuid" evs ∧ evs.all isBodyEvent = true)
    ∧ (∃ evs, (get_message_by_query_id cfgW envW execW (PyVal.vstr "u")).2
        = wrappedTrace cfgW envW "sp-uuid" evs ∧ evs.all isBodyEvent = true)
    ∧ (∃ evs, (get_user_conversations cfgW envW execW (PyVal.vstr "u")).2
        = wrappedTrace cfgW envW "sp-uuid" evs ∧ evs.all isBodyEvent = true)) :=
  And.intro (And.intro (by decide) rfl)
    (c4_helpers_connection_discipline cfgW envW "sp-uuid" execW
      (PyVal.vstr "u") PyVal.vnone PyVal.vnone PyVal.vnone PyVal.vnone
      PyVal.vnone PyVal.vnone (some (PyVal.vstr "a")) none
      (by decide) rfl)

/-! ### Claim C7 -/

/-- C7: with an empty (falsy) `instance_name`, `get_connection` raises
`ValueError` and its event trace is empty — no credential is generated,
no connection opened, no database state touched — for every body. -/
theorem c7_get_connection_unconfigured {α : Type}
    (config : DatabaseConfig) (env : ConnEnv)
    (body : Except String α × List DbEvent)
    (h : pyTruthy config.instance_name = false) :
    get_connection config env body
      = (Except.error "ValueError: Database instance_name not configured",
        []) := by
  unfold get_connection
  simp [h]

/-- C7 witness: an unconfigured instance name with a body that would
execute SQL. -/
theorem c7_witness :
    pyTruthy (DatabaseConfig.mk (PyVal.vstr "") (PyVal.vstr "db")
        PyVal.vnone).instance_name = false
    ∧ get_connection
        (DatabaseConfig.mk (PyVal.vstr "") (PyVal.vstr "db") PyVal.vnone) envW
        ((Except.ok (PyVal.vint 0), [DbEvent.sqlExec "SELECT 1" []]))
      = (Except.error "ValueError: Database instance_name not configured",
        []) :=
  And.intro (by decide)
    (c7_get_connection_unconfigured
      (DatabaseConfig.mk (PyVal.vstr "") (PyVal.vstr "db") PyVal.vnone) envW
      ((Except.ok (PyVal.vint 0), [DbEvent.sqlExec "SELECT 1" []]))
      (by decide))

/-! ### Claim C9 -/

/-- C9: `update_message` with both `answer=None` and `status=None`
executes no SQL statement (and commits nothing), leaving the messages
table — including `updated_at` — unchanged; with at least one argument
set, only the given fields and `updated_at` change on the addressed row
and every other column and row is unchanged. -/
theorem c9_update_message_frame
    (config : DatabaseConfig) (env : ConnEnv)
    (execSql : String → List PyVal → Except String (List PyVal))
    (message_id : PyVal) (now mid : Int) (table : List MsgRow)
    (answer status : Option PyVal)
    (hsome : answer ≠ none ∨ status ≠ none) :
    (hasSqlEvent (update_message config env execSql message_id none none).2
        = false
      ∧ applyUpdateMessage now mid none none table = (table, false))
    ∧ applyUpdateMessage now mid answer status table
      = (table.map (fun r =>
          if r.id = mid then
            { r with answer := answer.getD r.answer,
                     status := status.getD r.status,
                     updated_at := now }
          else r), true) := by
  refine ⟨⟨?_, ?_⟩, ?_⟩
  · unfold update_message update_message_body update_message_updates
      get_connection
    by_cases h1 : pyTruthy config.instance_name = false
    · simp [h1, hasSqlEvent]
    · cases hu : env.dbUsername with
      | none => simp [h1, hu, hasSqlEvent, isBodyEvent]
      | some u => simp [h1, hu, hasSqlEvent, isBodyEvent]
  · simp [applyUpdateMessage, update_message_updates]
  · rcases answer with _ | a <;> rcases status with _ | s
    · rcases hsome with h | h <;> exact absurd rfl h
    · simp [applyUpdateMessage, update_message_updates, applySets, applySet]
    · simp [applyUpdateMessage, update_message_updates, applySets, applySet]
    · simp [applyUpdateMessage, update_message_updates, applySets, applySet]

/-- C9 witness: the frame property evaluated on a one-row table. -/
theorem c9_witness :
    ((some (PyVal.vstr "ans") ≠ (none : Option PyVal)
        ∨ (none : Option PyVal) ≠ (none : Option PyVal)))
    ∧ ((hasSqlEvent (update_message cfgW envW execW (PyVal.vint 1) none none).2
        = false
      ∧ applyUpdateMessage 200 1 none none [rowW] = ([rowW], false))
    ∧ applyUpdateMessage 200 1 (some (PyVal.vstr "ans")) none [rowW]
      = ([rowW].map (fun r =>
          if r.id = 1 then
            { r with answer := (some (PyVal.vstr "ans")).getD r.answer,
                     status := (none : Option PyVal).getD r.status,
                     updated_at := 200 }
          else r), true)) :=
  And.intro (Or.inl (by simp))
    (c9_update_message_frame cfgW envW execW (PyVal.vint 1) 200 1 [rowW]
      (some (PyVal.vstr "ans")) none (Or.inl (by simp)))


/-! ### Angle-bracket safety lemmas for `_clean_text_for_pdf` -/

theorem angleOk_generic (c : Char) (r : List Char) (h1 : c ≠ '<') (h2 : c ≠ '>') :
    angleOk (c :: r) = angleOk r := by
  rw [angleOk.eq_def]
  simp [h1, h2]

theorem angleOk_bopen (r : List Char) :
    angleOk ('<' :: 'b' :: '>' :: r) = angleOk r := by
  simp [angleOk]

theorem angleOk_bclose (r : List Char) :
    angleOk ('<' :: '/' :: 'b' :: '>' :: r) = angleOk r := by
  simp [angleOk]

theorem angleOk_br (r : List Char) :
    angleOk ('<' :: 'b' :: 'r' :: '/' :: '>' :: r) = angleOk r := by
  simp [angleOk]

theorem noAngle_head (c : Char) (r : List Char) (h : noAngle (c :: r) = true) :
    (c ≠ '<' ∧ c ≠ '>') ∧ noAngle r = true := by
  simp [noAngle] at h ⊢
  tauto

theorem noAngle_angleOk : ∀ cs : List Char, noAngle cs = true → angleOk cs = true := by
  intro cs
  induction cs with
  | nil => intro _; rfl
  | cons c r ih =>
    intro h
    obtain ⟨⟨h1, h2⟩, h3⟩ := noAngle_head c r h
    rw [angleOk_generic c r h1 h2]
    exact ih h3

theorem angleOk_noAngle_append :
    ∀ xs ys : List Char, noAngle xs = true → angleOk (xs ++ ys) = angleOk ys := by
  intro xs
  induction xs with
  | nil => intro ys _; rfl
  | cons c r ih =>
    intro ys h
    obtain ⟨⟨h1, h2⟩, h3⟩ := noAngle_head c r h
    rw [List.cons_append, angleOk_generic c _ h1 h2]
    exact ih ys h3

theorem angleOk_shapes (cs : List Char) (h : angleOk cs = true) :
    cs = []
    ∨ (∃ r, cs = '<' :: 'b' :: '>' :: r ∧ angleOk r = true)
    ∨ (∃ r, cs = '<' :: '/' :: 'b' :: '>' :: r ∧ angleOk r = true)
    ∨ (∃ r, cs = '<' :: 'b' :: 'r' :: '/' :: '>' :: r ∧ angleOk r = true)
    ∨ (∃ c r, cs = c :: r ∧ c ≠ '<' ∧ c ≠ '>' ∧ angleOk r = true) := by
  rcases cs with _ | ⟨c, r⟩
  · exact Or.inl rfl
  by_cases hc1 : c = '<'
  · subst hc1
    rcases r with _ | ⟨c2, r2⟩
    · simp [angleOk] at h
    by_cases hb : c2 = 'b'
    · subst hb
      rcases r2 with _ | ⟨c3, r3⟩
      · simp [angleOk] at h
      by_cases h3 : c3 = '>'
      · subst h3
        exact Or.inr (Or.inl ⟨r3, rfl, by simpa [angleOk] using h⟩)
      by_cases h3r : c3 = 'r'
      · subst h3r
        rcases r3 with _ | ⟨c4, r4⟩
        · simp [angleOk] at h
        by_cases h4 : c4 = '/'
        · subst h4
          rcases r4 with _ | ⟨c5, r5⟩
          · simp [angleOk] at h
          by_cases h5 : c5 = '>'
          · subst h5
            exact Or.inr (Or.inr (Or.inr (Or.inl
              ⟨r5, rfl, by simpa [angleOk] using h⟩)))
          · simp [angleOk, h5] at h
        · simp [angleOk, h4] at h
      · simp [angleOk, h3, h3r] at h
    by_cases hs : c2 = '/'
    · subst hs
      rcases r2 with _ | ⟨c3, r3⟩
      · simp [angleOk] at h
      by_cases h3 : c3 = 'b'
      · subst h3
        rcases r3 with _ | ⟨c4, r4⟩
        · simp [angleOk] at h
        by_cases h4 : c4 = '>'
        · subst h4
          exact Or.inr (Or.inr (Or.inl ⟨r4, rfl, by simpa [angleOk] using h⟩))
        · simp [angleOk, h4] at h
      · simp [angleOk, h3] at h
    · simp [angleOk, hb, hs] at h
  by_cases hc2 : c = '>'
  · subst hc2
    rw [angleOk.eq_def] at h
    simp [hc1] at h
  · exact Or.inr (Or.inr (Or.inr (Or.inr
      ⟨c, r, rfl, hc1, hc2, by rwa [angleOk_generic c r hc1 hc2] at h⟩)))

theorem angleOk_append_aux :
    ∀ (n : Nat) (xs : List Char), xs.length ≤ n → angleOk xs = true →
      ∀ ys : List Char, angleOk ys = true → angleOk (xs ++ ys) = true := by
  intro n
  induction n with
  | zero =>
    intro xs hlen hx ys hy
    have : xs = [] := List.eq_nil_of_length_eq_zero (Nat.le_zero.mp hlen)
    subst this
    simpa using hy
  | succ n ih =>
    intro xs hlen hx ys hy
    rcases angleOk_shapes xs hx with h0 | ⟨r, he, hr⟩ | ⟨r, he, hr⟩ | ⟨r, he, hr⟩
      | ⟨c, r, he, hc1, hc2, hr⟩
    · subst h0; simpa using hy
    · subst he
      simp only [List.cons_append, angleOk_bopen]
      exact ih r (by simp at hlen; omega) hr ys hy
    · subst he
      simp only [List.cons_append, angleOk_bclose]
      exact ih r (by simp at hlen; omega) hr ys hy
    · subst he
      simp only [List.cons_append, angleOk_br]
      exact ih r (by simp at hlen; omega) hr ys hy
    · subst he
      rw [List.cons_append, angleOk_generic c _ hc1 hc2]
      exact ih r (by simp at hlen; omega) hr ys hy

theorem angleOk_append (xs ys : List Char) (hx : angleOk xs = true)
    (hy : angleOk ys = true) : angleOk (xs ++ ys) = true :=
  angleOk_append_aux xs.length xs (Nat.le_refl _) hx ys hy


theorem angleOk_split_aux (x : Char)
    (hx1 : x ≠ '<') (hx2 : x ≠ '>') (hxb : x ≠ 'b') (hxr : x ≠ 'r')
    (hxs : x ≠ '/') :
    ∀ (n : Nat) (xs ys : List Char), xs.length ≤ n →
      angleOk (xs ++ x :: ys) = true →
      angleOk xs = true ∧ angleOk ys = true := by
  intro n
  induction n with
  | zero =>
    intro xs ys hlen h
    have hnil : xs = [] := List.eq_nil_of_length_eq_zero (Nat.le_zero.mp hlen)
    subst hnil
    rw [List.nil_append, angleOk_generic x ys hx1 hx2] at h
    exact ⟨rfl, h⟩
  | succ n ih =>
    intro xs ys hlen h
    rcases xs with _ | ⟨c, xs2⟩
    · rw [List.nil_append, angleOk_generic x ys hx1 hx2] at h
      exact ⟨rfl, h⟩
    rw [List.cons_append] at h
    rcases angleOk_shapes _ h with h0 | ⟨r, he, hr⟩ | ⟨r, he, hr⟩ | ⟨r, he, hr⟩
      | ⟨c2, r, he, hc1, hc2, hr⟩
    · exact absurd h0 (List.cons_ne_nil _ _)
    · -- shape <b>
      injection he with hc he2
      subst hc
      rcases xs2 with _ | ⟨d1, xs3⟩
      · rw [List.nil_append] at he2
        injection he2 with hxc _
        exact absurd hxc hxb
      rw [List.cons_append] at he2
      injection he2 with hd1 he3
      subst hd1
      rcases xs3 with _ | ⟨d2, xs4⟩
      · rw [List.nil_append] at he3
        injection he3 with hxc _
        exact absurd hxc hx2
      rw [List.cons_append] at he3
      injection he3 with hd2 he4
      subst hd2
      have hr2 : angleOk (xs4 ++ x :: ys) = true := by rw [he4]; exact hr
      obtain ⟨a1, a2⟩ := ih xs4 ys (by simp at hlen; omega) hr2
      exact ⟨by rw [angleOk_bopen]; exact a1, a2⟩
    · -- shape </b>
      injection he with hc he2
      subst hc
      rcases xs2 with _ | ⟨d1, xs3⟩
      · rw [List.nil_append] at he2
        injection he2 with hxc _
        exact absurd hxc hxs
      rw [List.cons_append] at he2
      injection he2 with hd1 he3
      subst hd1
      rcases xs3 with _ | ⟨d2, xs4⟩
      · rw [List.nil_append] at he3
        injection he3 with hxc _
        exact absurd hxc hxb
      rw [List.cons_append] at he3
      injection he3 with hd2 he4
      subst hd2
      rcases xs4 with _ | ⟨d3, xs5⟩
      · rw [List.nil_append] at he4
        injection he4 with hxc _
        exact absurd hxc hx2
      rw [List.cons_append] at he4
      injection he4 with hd3 he5
      subst hd3
      have hr2 : angleOk (xs5 ++ x :: ys) = true := by rw [he5]; exact hr
      obtain ⟨a1, a2⟩ := ih xs5 ys (by simp at hlen; omega) hr2
      exact ⟨by rw [angleOk_bclose]; exact a1, a2⟩
    · -- shape <br/>
      injection he with hc he2
      subst hc
      rcases xs2 with _ | ⟨d1, xs3⟩
      · rw [List.nil_append] at he2
        injection he2 with hxc _
        exact absurd hxc hxb
      rw [List.cons_append] at he2
      injection he2 with hd1 he3
      subst hd1
      rcases xs3 with _ | ⟨d2, xs4⟩
      · rw [List.nil_append] at he3
        injection he3 with hxc _
        exact absurd hxc hxr
      rw [List.cons_append] at he3
      injection he3 with hd2 he4
      subst hd2
      rcases xs4 with _ | ⟨d3, xs5⟩
      · rw [List.nil_append] at he4
        injection he4 with hxc _
        exact absurd hxc hxs
      rw [List.cons_append] at he4
      injection he4 with hd3 he5
      subst hd3
      rcases xs5 with _ | ⟨d4, xs6⟩
      · rw [List.nil_append] at he5
        injection he5 with hxc _
        exact absurd hxc hx2
      rw [List.cons_append] at he5
      injection he5 with hd4 he6
      subst hd4
      have hr2 : angleOk (xs6 ++ x :: ys) = true := by rw [he6]; exact hr
      obtain ⟨a1, a2⟩ := ih xs6 ys (by simp at hlen; omega) hr2
      exact ⟨by rw [angleOk_br]; exact a1, a2⟩
    · -- generic head
      injection he with hc he2
      subst hc
      have hr2 : angleOk (xs2 ++ x :: ys) = true := by rw [he2]; exact hr
      obtain ⟨a1, a2⟩ := ih xs2 ys (by simp at hlen; omega) hr2
      exact ⟨by rw [angleOk_generic _ xs2 hc1 hc2]; exact a1, a2⟩

theorem angleOk_split_pipe (xs ys : List Char)
    (h : angleOk (xs ++ '|' :: ys) = true) :
    angleOk xs = true ∧ angleOk ys = true :=
  angleOk_split_aux '|' (by decide) (by decide) (by decide) (by decide)
    (by decide) xs.length xs ys (Nat.le_refl _) h

theorem boldCap_decomp :
    ∀ (cs cap r2 : List Char), boldCap cs = some (cap, r2) →
      cs = cap ++ '*' :: '*' :: r2 := by
  intro cs
  induction cs with
  | nil => intro cap r2 h; simp [boldCap] at h
  | cons c rest ih =>
    intro cap r2 h
    unfold boldCap at h
    split at h
    · exact Option.noConfusion h
    · split at h
      · -- rest = '*' :: '*' :: rest2
        simp only [Option.some.injEq, Prod.mk.injEq] at h
        obtain ⟨h1, h2⟩ := h
        subst h1; subst h2
        rfl
      · -- default: prepend c to a deeper capture
        cases hcap : boldCap rest with
        | none => rw [hcap] at h; simp at h
        | some p =>
          obtain ⟨cap1, r1⟩ := p
          rw [hcap] at h
          simp only [Option.map_some', Option.some.injEq, Prod.mk.injEq] at h
          obtain ⟨h1, h2⟩ := h
          subst h2
          have hd := ih cap1 r1 hcap
          rw [← h1, hd, List.cons_append]

theorem pipeCap_decomp :
    ∀ (cs cap r2 : List Char), pipeCap cs = some (cap, r2) →
      cs = cap ++ '|' :: r2 := by
  intro cs
  induction cs with
  | nil => intro cap r2 h; simp [pipeCap] at h
  | cons c rest ih =>
    intro cap r2 h
    unfold pipeCap at h
    split at h
    · exact Option.noConfusion h
    · split at h
      · simp only [Option.some.injEq, Prod.mk.injEq] at h
        obtain ⟨h1, h2⟩ := h
        subst h1; subst h2
        rfl
      · cases hcap : pipeCap rest with
        | none => rw [hcap] at h; simp at h
        | some p =>
          obtain ⟨cap1, r1⟩ := p
          rw [hcap] at h
          simp only [Option.map_some', Option.some.injEq, Prod.mk.injEq] at h
          obtain ⟨h1, h2⟩ := h
          subst h2
          have hd := ih cap1 r1 hcap
          rw [← h1, hd, List.cons_append]


theorem replaceChar_all (c : Char) (rep : List Char) (p : Char → Bool)
    (hrep : rep.all p = true) (hother : ∀ d, d ≠ c → p d = true) :
    ∀ cs : List Char, ((replaceChar c rep cs).all p) = true := by
  intro cs
  induction cs with
  | nil => rfl
  | cons d rest ih =>
    unfold replaceChar
    by_cases hd : d = c
    · rw [if_pos hd]
      simp only [List.all_append, Bool.and_eq_true]
      exact ⟨hrep, ih⟩
    · rw [if_neg hd]
      simp only [List.cons_append, List.nil_append, List.all_cons,
        Bool.and_eq_true]
      exact ⟨hother d hd, ih⟩

theorem replaceChar_preserve (c : Char) (rep : List Char) (p : Char → Bool)
    (hrep : rep.all p = true) :
    ∀ cs : List Char, cs.all p = true →
      ((replaceChar c rep cs).all p) = true := by
  intro cs
  induction cs with
  | nil => intro _; rfl
  | cons d rest ih =>
    intro h
    simp only [List.all_cons, Bool.and_eq_true] at h
    unfold replaceChar
    by_cases hd : d = c
    · rw [if_pos hd]
      simp only [List.all_append, Bool.and_eq_true]
      exact ⟨hrep, ih h.2⟩
    · rw [if_neg hd]
      simp only [List.cons_append, List.nil_append, List.all_cons,
        Bool.and_eq_true]
      exact ⟨h.1, ih h.2⟩

theorem noAngle_of_all (l : List Char)
    (hp : l.all (fun d => !(d == '<')) = true)
    (hq : l.all (fun d => !(d == '>')) = true) : noAngle l = true := by
  simp only [noAngle, List.all_eq_true, Bool.not_eq_true', Bool.or_eq_false_iff,
    beq_eq_false_iff_ne] at *
  intro c hc
  exact ⟨hp c hc, hq c hc⟩

theorem escapeXmlChars_noAngle (cs : List Char) :
    noAngle (escapeXmlChars cs) = true := by
  unfold escapeXmlChars
  apply noAngle_of_all
  · apply replaceChar_preserve '>' _ _ (by decide)
    apply replaceChar_all '<' _ _ (by decide)
    intro d hd
    simpa using hd
  · apply replaceChar_all '>' _ _ (by decide)
    intro d hd
    simpa using hd

theorem noAngle_append_parts (a b : List Char) (h : noAngle (a ++ b) = true) :
    noAngle a = true ∧ noAngle b = true := by
  simp [noAngle, List.all_append] at h ⊢
  tauto

theorem boldSubAux_angleOk :
    ∀ (n : Nat) (cs : List Char), noAngle cs = true →
      angleOk (boldSubAux n cs) = true := by
  intro n
  induction n with
  | zero => intro cs h; exact noAngle_angleOk cs h
  | succ n ih =>
    intro cs h
    rcases cs with _ | ⟨c, rest⟩
    · rfl
    rcases rest with _ | ⟨d, rest1⟩
    · obtain ⟨⟨hc1, hc2⟩, _⟩ := noAngle_head _ _ h
      have hstep : boldSubAux (n + 1) [c] = c :: boldSubAux n [] := by
        simp [boldSubAux]
      rw [hstep, angleOk_generic c _ hc1 hc2]
      exact ih [] rfl
    by_cases hc : c = '*' ∧ d = '*'
    · obtain ⟨h1, h2⟩ := hc
      subst h1; subst h2
      obtain ⟨_, hna1⟩ := noAngle_head _ _ h
      obtain ⟨_, hna2⟩ := noAngle_head _ _ hna1
      cases hcap : boldCap rest1 with
      | none =>
        have hstep : boldSubAux (n + 1) ('*' :: '*' :: rest1)
            = '*' :: boldSubAux n ('*' :: rest1) := by
          simp [boldSubAux, hcap]
        rw [hstep, angleOk_generic '*' _ (by decide) (by decide)]
        exact ih ('*' :: rest1) hna1
      | some p =>
        obtain ⟨cap, rest2⟩ := p
        have hstep : boldSubAux (n + 1) ('*' :: '*' :: rest1)
            = '<' :: 'b' :: '>' :: cap
              ++ ('<' :: '/' :: 'b' :: '>' :: boldSubAux n rest2) := by
          simp [boldSubAux, hcap]
        have hd := boldCap_decomp rest1 cap rest2 hcap
        rw [hd] at hna2
        obtain ⟨hcapNA, hrest⟩ := noAngle_append_parts _ _ hna2
        obtain ⟨_, hrest2⟩ := noAngle_head _ _ hrest
        obtain ⟨_, hrest3⟩ := noAngle_head _ _ hrest2
        rw [hstep]
        simp only [List.cons_append]
        rw [angleOk_bopen, angleOk_noAngle_append _ _ hcapNA, angleOk_bclose]
        exact ih rest2 hrest3
    · have hstep : boldSubAux (n + 1) (c :: d :: rest1)
          = c :: boldSubAux n (d :: rest1) := by
        rcases Decidable.em (c = '*') with h1 | h1
        · subst h1
          rcases Decidable.em (d = '*') with h2 | h2
          · exact absurd ⟨rfl, h2⟩ hc
          · simp [boldSubAux, h2]
        · simp [boldSubAux, h1]
      obtain ⟨⟨hc1, hc2⟩, hrest⟩ := noAngle_head _ _ h
      rw [hstep, angleOk_generic c _ hc1 hc2]
      exact ih _ hrest


theorem splitLines_ne_nil : ∀ cs : List Char, splitLines cs ≠ [] := by
  intro cs
  induction cs with
  | nil => simp [splitLines]
  | cons c rest ih =>
    unfold splitLines
    by_cases hc : c = '\n'
    · simp [hc]
    · simp only [hc, ite_false, if_false]
      cases h : splitLines rest with
      | nil => simp
      | cons l ls => simp

theorem splitLines_cons_ne (c : Char) (rest : List Char) (hc : c ≠ '\n')
    (l : List Char) (ls : List (List Char)) (h : splitLines rest = l :: ls) :
    splitLines (c :: rest) = (c :: l) :: ls := by
  unfold splitLines
  simp [hc, h]

theorem splitLines_angleOk :
    ∀ (n : Nat) (cs : List Char), cs.length ≤ n → angleOk cs = true →
      ∀ l ∈ splitLines cs, angleOk l = true := by
  intro n
  induction n with
  | zero =>
    intro cs hlen h l hl
    have : cs = [] := List.eq_nil_of_length_eq_zero (Nat.le_zero.mp hlen)
    subst this
    simp [splitLines] at hl
    subst hl
    rfl
  | succ n ih =>
    intro cs hlen h l hl
    rcases angleOk_shapes cs h with h0 | ⟨r, he, hr⟩ | ⟨r, he, hr⟩ | ⟨r, he, hr⟩
      | ⟨c, r, he, hc1, hc2, hr⟩
    · subst h0
      simp [splitLines] at hl
      subst hl
      rfl
    · subst he
      obtain ⟨l0, ls0, hsp⟩ : ∃ l0 ls0, splitLines r = l0 :: ls0 := by
        cases hx : splitLines r with
        | nil => exact absurd hx (splitLines_ne_nil r)
        | cons a b => exact ⟨a, b, rfl⟩
      have e1 := splitLines_cons_ne '>' r (by decide) l0 ls0 hsp
      have e2 := splitLines_cons_ne 'b' ('>' :: r) (by decide) _ _ e1
      have e3 := splitLines_cons_ne '<' ('b' :: '>' :: r) (by decide) _ _ e2
      rw [e3] at hl
      rcases List.mem_cons.mp hl with h1 | h1
      · subst h1
        rw [angleOk_bopen]
        exact ih r (by simp at hlen; omega) hr l0 (hsp ▸ List.mem_cons_self _ _)
      · exact ih r (by simp at hlen; omega) hr l (hsp ▸ List.mem_cons_of_mem _ h1)
    · subst he
      obtain ⟨l0, ls0, hsp⟩ : ∃ l0 ls0, splitLines r = l0 :: ls0 := by
        cases hx : splitLines r with
        | nil => exact absurd hx (splitLines_ne_nil r)
        | cons a b => exact ⟨a, b, rfl⟩
      have e1 := splitLines_cons_ne '>' r (by decide) l0 ls0 hsp
      have e2 := splitLines_cons_ne 'b' ('>' :: r) (by decide) _ _ e1
      have e3 := splitLines_cons_ne '/' ('b' :: '>' :: r) (by decide) _ _ e2
      have e4 := splitLines_cons_ne '<' ('/' :: 'b' :: '>' :: r) (by decide) _ _ e3
      rw [e4] at hl
      rcases List.mem_cons.mp hl with h1 | h1
      · subst h1
        rw [angleOk_bclose]
        exact ih r (by simp at hlen; omega) hr l0 (hsp ▸ List.mem_cons_self _ _)
      · exact ih r (by simp at hlen; omega) hr l (hsp ▸ List.mem_cons_of_mem _ h1)
    · subst he
      obtain ⟨l0, ls0, hsp⟩ : ∃ l0 ls0, splitLines r = l0 :: ls0 := by
        cases hx : splitLines r with
        | nil => exact absurd hx (splitLines_ne_nil r)
        | cons a b => exact ⟨a, b, rfl⟩
      have e1 := splitLines_cons_ne '>' r (by decide) l0 ls0 hsp
      have e2 := splitLines_cons_ne '/' ('>' :: r) (by decide) _ _ e1
      have e3 := splitLines_cons_ne 'r' ('/' :: '>' :: r) (by decide) _ _ e2
      have e4 := splitLines_cons_ne 'b' ('r' :: '/' :: '>' :: r) (by decide) _ _ e3
      have e5 := splitLines_cons_ne '<' ('b' :: 'r' :: '/' :: '>' :: r) (by decide) _ _ e4
      rw [e5] at hl
      rcases List.mem_cons.mp hl with h1 | h1
      · subst h1
        rw [angleOk_br]
        exact ih r (by simp at hlen; omega) hr l0 (hsp ▸ List.mem_cons_self _ _)
      · exact ih r (by simp at hlen; omega) hr l (hsp ▸ List.mem_cons_of_mem _ h1)
    · subst he
      by_cases hcn : c = '\n'
      · subst hcn
        have e : splitLines ('\n' :: r) = [] :: splitLines r := by
          rw [splitLines.eq_def]
          simp
        rw [e] at hl
        rcases List.mem_cons.mp hl with h1 | h1
        · subst h1; rfl
        · exact ih r (by simp at hlen; omega) hr l h1
      · obtain ⟨l0, ls0, hsp⟩ : ∃ l0 ls0, splitLines r = l0 :: ls0 := by
          cases hx : splitLines r with
          | nil => exact absurd hx (splitLines_ne_nil r)
          | cons a b => exact ⟨a, b, rfl⟩
        have e1 := splitLines_cons_ne c r hcn l0 ls0 hsp
        rw [e1] at hl
        rcases List.mem_cons.mp hl with h1 | h1
        · subst h1
          rw [angleOk_generic c _ hc1 hc2]
          exact ih r (by simp at hlen; omega) hr l0 (hsp ▸ List.mem_cons_self _ _)
        · exact ih r (by simp at hlen; omega) hr l (hsp ▸ List.mem_cons_of_mem _ h1)

theorem joinLines_angleOk :
    ∀ ls : List (List Char), (∀ l ∈ ls, angleOk l = true) →
      angleOk (joinLines ls) = true := by
  intro ls
  induction ls with
  | nil => intro _; rfl
  | cons l ls ih =>
    intro h
    cases ls with
    | nil => simpa [joinLines] using h l (by simp)
    | cons l2 ls2 =>
      show angleOk (l ++ '\n' :: joinLines (l2 :: ls2)) = true
      apply angleOk_append l _ (h l (by simp))
      rw [angleOk_generic '\n' _ (by decide) (by decide)]
      exact ih (fun x hx => h x (by simp [hx]))

theorem isWsChar_not_angle (c : Char) (h : isWsChar c = true) :
    c ≠ '<' ∧ c ≠ '>' :=
  ⟨fun he => by subst he; exact absurd h (by decide),
   fun he => by subst he; exact absurd h (by decide)⟩

theorem takeWhile_ws_noAngle (l : List Char) :
    noAngle (l.takeWhile isWsChar) = true := by
  simp only [noAngle, List.all_eq_true, Bool.not_eq_true', Bool.or_eq_false_iff,
    beq_eq_false_iff_ne]
  intro c hc
  exact isWsChar_not_angle c (List.mem_takeWhile_imp hc)

theorem dropWhile_ws_angleOk (l : List Char) (h : angleOk l = true) :
    angleOk (l.dropWhile isWsChar) = true := by
  have hsplit : l.takeWhile isWsChar ++ l.dropWhile isWsChar = l :=
    List.takeWhile_append_dropWhile isWsChar l
  have e := angleOk_noAngle_append (l.takeWhile isWsChar)
    (l.dropWhile isWsChar) (takeWhile_ws_noAngle l)
  rw [hsplit] at e
  rw [← e]
  exact h

theorem getLastD_ws (l : List Char) (h : ∀ c ∈ l, isWsChar c = true) :
    ∀ d, isWsChar d = true → isWsChar (l.getLastD d) = true := by
  induction l with
  | nil => intro d hd; simpa [List.getLastD] using hd
  | cons c rest ih =>
    intro d hd
    rw [List.getLastD_cons]
    exact ih (fun x hx => h x (by simp [hx])) c (h c (by simp))


theorem h2Line_angleOk (l : List Char) (h : angleOk l = true) :
    angleOk (h2Line l) = true := by
  unfold h2Line
  split
  · rename_i rest
    have hrest : angleOk rest = true := by
      rw [angleOk_generic '#' _ (by decide) (by decide),
          angleOk_generic '#' _ (by decide) (by decide)] at h
      exact h
    dsimp only
    by_cases h1 : (rest.takeWhile isWsChar).isEmpty = true
    · rw [if_pos h1]
      exact h
    · rw [if_neg h1]
      by_cases h2 : (!(rest.dropWhile isWsChar).isEmpty) = true
      · rw [if_pos h2]
        simp only [List.cons_append]
        rw [angleOk_bopen]
        exact angleOk_append _ _ (dropWhile_ws_angleOk rest hrest) (by decide)
      · rw [if_neg h2]
        by_cases h3 : 2 ≤ (rest.takeWhile isWsChar).length
        · rw [if_pos h3]
          have hw : isWsChar ((rest.takeWhile isWsChar).getLastD ' ') = true :=
            getLastD_ws _ (fun c hc => List.mem_takeWhile_imp hc) ' ' (by decide)
          obtain ⟨hw1, hw2⟩ := isWsChar_not_angle _ hw
          show angleOk ('<' :: 'b' :: '>'
            :: ((rest.takeWhile isWsChar).getLastD ' ')
            :: ['<', '/', 'b', '>']) = true
          rw [angleOk_bopen, angleOk_generic _ _ hw1 hw2]
          decide
        · rw [if_neg h3]
          exact h
  · exact h

theorem h1Line_angleOk (l : List Char) (h : angleOk l = true) :
    angleOk (h1Line l) = true := by
  unfold h1Line
  split
  · rename_i rest
    have hrest : angleOk rest = true := by
      rw [angleOk_generic '#' _ (by decide) (by decide)] at h
      exact h
    dsimp only
    by_cases h1 : (rest.takeWhile isWsChar).isEmpty = true
    · rw [if_pos h1]
      exact h
    · rw [if_neg h1]
      by_cases h2 : (!(rest.dropWhile isWsChar).isEmpty) = true
      · rw [if_pos h2]
        simp only [List.cons_append]
        rw [angleOk_bopen]
        exact angleOk_append _ _ (dropWhile_ws_angleOk rest hrest) (by decide)
      · rw [if_neg h2]
        by_cases h3 : 2 ≤ (rest.takeWhile isWsChar).length
        · rw [if_pos h3]
          have hw : isWsChar ((rest.takeWhile isWsChar).getLastD ' ') = true :=
            getLastD_ws _ (fun c hc => List.mem_takeWhile_imp hc) ' ' (by decide)
          obtain ⟨hw1, hw2⟩ := isWsChar_not_angle _ hw
          show angleOk ('<' :: 'b' :: '>'
            :: ((rest.takeWhile isWsChar).getLastD ' ')
            :: ['<', '/', 'b', '>']) = true
          rw [angleOk_bopen, angleOk_generic _ _ hw1 hw2]
          decide
        · rw [if_neg h3]
          exact h
  · exact h

theorem bulletLine_angleOk (l : List Char) (h : angleOk l = true) :
    angleOk (bulletLine l) = true := by
  unfold bulletLine
  split
  · rename_i c rest
    by_cases hc : ((c = '•' || c = '-' || c = '*')
        && !(rest.takeWhile isWsChar).isEmpty) = true
    · rw [if_pos hc]
      have hcne : c ≠ '<' ∧ c ≠ '>' := by
        simp only [Bool.and_eq_true, Bool.or_eq_true, decide_eq_true_eq] at hc
        rcases hc.1 with (h1 | h1) | h1 <;> subst h1 <;> exact ⟨by decide, by decide⟩
      have hrest : angleOk rest = true := by
        rw [angleOk_generic c _ hcne.1 hcne.2] at h
        exact h
      show angleOk ([' ', ' ', '•', ' '] ++ rest.dropWhile isWsChar) = true
      rw [angleOk_noAngle_append _ _ (by decide)]
      exact dropWhile_ws_angleOk rest hrest
    · rw [if_neg hc]
      exact h
  · exact h

theorem numLine_angleOk (l : List Char) (h : angleOk l = true) :
    angleOk (numLine l) = true := by
  unfold numLine
  dsimp only
  by_cases h1 : (!(l.takeWhile Char.isDigit).isEmpty) = true
  · rw [if_pos h1]
    split
    · rename_i rest2 heq
      by_cases h2 : (!(rest2.takeWhile isWsChar).isEmpty) = true
      · rw [if_pos h2]
        show angleOk ([' ', ' '] ++ l) = true
        rw [angleOk_noAngle_append _ _ (by decide)]
        exact h
      · rw [if_neg h2]
        exact h
    · exact h
  · rw [if_neg h1]
    exact h

theorem mapLines_angleOk (f : List Char → List Char)
    (hf : ∀ l, angleOk l = true → angleOk (f l) = true)
    (cs : List Char) (h : angleOk cs = true) :
    angleOk (mapLines f cs) = true := by
  unfold mapLines
  apply joinLines_angleOk
  intro l hl
  obtain ⟨l0, hl0, hfl⟩ := List.mem_map.mp hl
  rw [← hfl]
  exact hf l0 (splitLines_angleOk cs.length cs (Nat.le_refl _) h l0 hl0)


theorem nl2Sub_angleOk :
    ∀ (n : Nat) (cs : List Char), cs.length ≤ n → angleOk cs = true →
      angleOk (nl2Sub cs) = true := by
  intro n
  induction n with
  | zero =>
    intro cs hlen h
    have : cs = [] := List.eq_nil_of_length_eq_zero (Nat.le_zero.mp hlen)
    subst this
    exact h
  | succ n ih =>
    intro cs hlen h
    rcases angleOk_shapes cs h with h0 | ⟨r, he, hr⟩ | ⟨r, he, hr⟩ | ⟨r, he, hr⟩
      | ⟨c, r, he, hc1, hc2, hr⟩
    · subst h0; exact h
    · subst he
      have e : nl2Sub ('<' :: 'b' :: '>' :: r) = '<' :: 'b' :: '>' :: nl2Sub r := by
        simp [nl2Sub]
      rw [e, angleOk_bopen]
      exact ih r (by simp at hlen; omega) hr
    · subst he
      have e : nl2Sub ('<' :: '/' :: 'b' :: '>' :: r)
          = '<' :: '/' :: 'b' :: '>' :: nl2Sub r := by
        simp [nl2Sub]
      rw [e, angleOk_bclose]
      exact ih r (by simp at hlen; omega) hr
    · subst he
      have e : nl2Sub ('<' :: 'b' :: 'r' :: '/' :: '>' :: r)
          = '<' :: 'b' :: 'r' :: '/' :: '>' :: nl2Sub r := by
        simp [nl2Sub]
      rw [e, angleOk_br]
      exact ih r (by simp at hlen; omega) hr
    · subst he
      by_cases hcn : c = '\n'
      · subst hcn
        rcases r with _ | ⟨d, r2⟩
        · have e : nl2Sub ['\n'] = '\n' :: nl2Sub [] := by simp [nl2Sub]
          rw [e, angleOk_generic _ _ (by decide) (by decide)]
          rfl
        by_cases hd : d = '\n'
        · subst hd
          have e : nl2Sub ('\n' :: '\n' :: r2)
              = '<' :: 'b' :: 'r' :: '/' :: '>'
                :: '<' :: 'b' :: 'r' :: '/' :: '>' :: nl2Sub r2 := by
            simp [nl2Sub]
          have hr2 : angleOk r2 = true := by
            rw [angleOk_generic '\n' _ (by decide) (by decide)] at hr
            exact hr
          rw [e, angleOk_br, angleOk_br]
          exact ih r2 (by simp at hlen; omega) hr2
        · have e : nl2Sub ('\n' :: d :: r2) = '\n' :: nl2Sub (d :: r2) := by
            simp [nl2Sub, hd]
          rw [e, angleOk_generic _ _ (by decide) (by decide)]
          exact ih (d :: r2) (by simp at hlen ⊢; omega) hr
      · have e : nl2Sub (c :: r) = c :: nl2Sub r := by
          simp [nl2Sub, hcn]
        rw [e, angleOk_generic c _ hc1 hc2]
        exact ih r (by simp at hlen; omega) hr

theorem nl1Sub_angleOk :
    ∀ (n : Nat) (cs : List Char), cs.length ≤ n → angleOk cs = true →
      angleOk (nl1Sub cs) = true := by
  intro n
  induction n with
  | zero =>
    intro cs hlen h
    have : cs = [] := List.eq_nil_of_length_eq_zero (Nat.le_zero.mp hlen)
    subst this
    exact h
  | succ n ih =>
    intro cs hlen h
    rcases angleOk_shapes cs h with h0 | ⟨r, he, hr⟩ | ⟨r, he, hr⟩ | ⟨r, he, hr⟩
      | ⟨c, r, he, hc1, hc2, hr⟩
    · subst h0; exact h
    · subst he
      have e : nl1Sub ('<' :: 'b' :: '>' :: r) = '<' :: 'b' :: '>' :: nl1Sub r := by
        simp [nl1Sub]
      rw [e, angleOk_bopen]
      exact ih r (by simp at hlen; omega) hr
    · subst he
      have e : nl1Sub ('<' :: '/' :: 'b' :: '>' :: r)
          = '<' :: '/' :: 'b' :: '>' :: nl1Sub r := by
        simp [nl1Sub]
      rw [e, angleOk_bclose]
      exact ih r (by simp at hlen; omega) hr
    · subst he
      have e : nl1Sub ('<' :: 'b' :: 'r' :: '/' :: '>' :: r)
          = '<' :: 'b' :: 'r' :: '/' :: '>' :: nl1Sub r := by
        simp [nl1Sub]
      rw [e, angleOk_br]
      exact ih r (by simp at hlen; omega) hr
    · subst he
      by_cases hcn : c = '\n'
      · subst hcn
        have e : nl1Sub ('\n' :: r)
            = '<' :: 'b' :: 'r' :: '/' :: '>' :: nl1Sub r := by
          simp [nl1Sub]
        rw [e, angleOk_br]
        exact ih r (by simp at hlen; omega) hr
      · have e : nl1Sub (c :: r) = c :: nl1Sub r := by
          simp [nl1Sub, hcn]
        rw [e, angleOk_generic c _ hc1 hc2]
        exact ih r (by simp at hlen; omega) hr

theorem pipeSubAux_angleOk :
    ∀ (n : Nat) (cs : List Char), angleOk cs = true →
      angleOk (pipeSubAux n cs) = true := by
  intro n
  induction n with
  | zero => intro cs h; simpa [pipeSubAux] using h
  | succ n ih =>
    intro cs h
    rcases angleOk_shapes cs h with h0 | ⟨r, he, hr⟩ | ⟨r, he, hr⟩ | ⟨r, he, hr⟩
      | ⟨c, r, he, hc1, hc2, hr⟩
    · subst h0
      simpa [pipeSubAux] using h
    · subst he
      have e : pipeSubAux (n + 1) ('<' :: 'b' :: '>' :: r)
          = '<' :: 'b' :: '>' :: pipeSubAux n r := by
        simp [pipeSubAux]
      rw [e, angleOk_bopen]
      exact ih r hr
    · subst he
      have e : pipeSubAux (n + 1) ('<' :: '/' :: 'b' :: '>' :: r)
          = '<' :: '/' :: 'b' :: '>' :: pipeSubAux n r := by
        simp [pipeSubAux]
      rw [e, angleOk_bclose]
      exact ih r hr
    · subst he
      have e : pipeSubAux (n + 1) ('<' :: 'b' :: 'r' :: '/' :: '>' :: r)
          = '<' :: 'b' :: 'r' :: '/' :: '>' :: pipeSubAux n r := by
        simp [pipeSubAux]
      rw [e, angleOk_br]
      exact ih r hr
    · subst he
      by_cases hcp : c = '|'
      · subst hcp
        cases hcap : pipeCap r with
        | none =>
          have e : pipeSubAux (n + 1) ('|' :: r) = '|' :: pipeSubAux n r := by
            simp [pipeSubAux, hcap]
          rw [e, angleOk_generic _ _ (by decide) (by decide)]
          exact ih r hr
        | some p =>
          obtain ⟨cap, r2⟩ := p
          have e : pipeSubAux (n + 1) ('|' :: r) = cap ++ pipeSubAux n r2 := by
            simp [pipeSubAux, hcap]
          have hdec := pipeCap_decomp r cap r2 hcap
          rw [hdec] at hr
          obtain ⟨hcapOk, hr2⟩ := angleOk_split_pipe cap r2 hr
          rw [e]
          exact angleOk_append _ _ hcapOk (ih r2 hr2)
      · have e : pipeSubAux (n + 1) (c :: r) = c :: pipeSubAux n r := by
          simp [pipeSubAux, hcp, hc1]
        rw [e, angleOk_generic c _ hc1 hc2]
        exact ih r hr

theorem dashAux_pad_noAngle (p : Nat) :
    noAngle (if 3 ≤ p then [] else List.replicate p '-') = true := by
  split
  · rfl
  · simp only [noAngle, List.all_eq_true, Bool.not_eq_true', Bool.or_eq_false_iff,
      beq_eq_false_iff_ne]
    intro c hc
    have := List.eq_of_mem_replicate hc
    subst this
    exact ⟨by decide, by decide⟩

theorem dashAux_angleOk :
    ∀ (n : Nat) (cs : List Char), cs.length ≤ n → angleOk cs = true →
      ∀ p, angleOk (dashAux p cs) = true := by
  intro n
  induction n with
  | zero =>
    intro cs hlen h p
    have : cs = [] := List.eq_nil_of_length_eq_zero (Nat.le_zero.mp hlen)
    subst this
    exact noAngle_angleOk _ (dashAux_pad_noAngle p)
  | succ n ih =>
    intro cs hlen h p
    rcases angleOk_shapes cs h with h0 | ⟨r, he, hr⟩ | ⟨r, he, hr⟩ | ⟨r, he, hr⟩
      | ⟨c, r, he, hc1, hc2, hr⟩
    · subst h0
      exact noAngle_angleOk _ (dashAux_pad_noAngle p)
    · subst he
      have e : dashAux p ('<' :: 'b' :: '>' :: r)
          = (if 3 ≤ p then [] else List.replicate p '-')
            ++ '<' :: 'b' :: '>' :: dashAux 0 r := by
        simp [dashAux]
      rw [e, angleOk_noAngle_append _ _ (dashAux_pad_noAngle p), angleOk_bopen]
      exact ih r (by simp at hlen; omega) hr 0
    · subst he
      have e : dashAux p ('<' :: '/' :: 'b' :: '>' :: r)
          = (if 3 ≤ p then [] else List.replicate p '-')
            ++ '<' :: '/' :: 'b' :: '>' :: dashAux 0 r := by
        simp [dashAux]
      rw [e, angleOk_noAngle_append _ _ (dashAux_pad_noAngle p), angleOk_bclose]
      exact ih r (by simp at hlen; omega) hr 0
    · subst he
      have e : dashAux p ('<' :: 'b' :: 'r' :: '/' :: '>' :: r)
          = (if 3 ≤ p then [] else List.replicate p '-')
            ++ '<' :: 'b' :: 'r' :: '/' :: '>' :: dashAux 0 r := by
        simp [dashAux]
      rw [e, angleOk_noAngle_append _ _ (dashAux_pad_noAngle p), angleOk_br]
      exact ih r (by simp at hlen; omega) hr 0
    · subst he
      by_cases hcd : c = '-'
      · subst hcd
        have e : dashAux p ('-' :: r) = dashAux (p + 1) r := by
          simp [dashAux]
        rw [e]
        exact ih r (by simp at hlen; omega) hr (p + 1)
      · have e : dashAux p (c :: r)
            = (if 3 ≤ p then [] else List.replicate p '-')
              ++ c :: dashAux 0 r := by
          simp [dashAux, hcd]
        rw [e, angleOk_noAngle_append _ _ (dashAux_pad_noAngle p),
          angleOk_generic c _ hc1 hc2]
        exact ih r (by simp at hlen; omega) hr 0

theorem boldSub_angleOk (cs : List Char) (h : noAngle cs = true) :
    angleOk (boldSub cs) = true :=
  boldSubAux_angleOk cs.length cs h

theorem nl2Sub_angleOk_top (cs : List Char) (h : angleOk cs = true) :
    angleOk (nl2Sub cs) = true :=
  nl2Sub_angleOk cs.length cs (Nat.le_refl _) h

theorem nl1Sub_angleOk_top (cs : List Char) (h : angleOk cs = true) :
    angleOk (nl1Sub cs) = true :=
  nl1Sub_angleOk cs.length cs (Nat.le_refl _) h

theorem pipeSub_angleOk (cs : List Char) (h : angleOk cs = true) :
    angleOk (pipeSub cs) = true :=
  pipeSubAux_angleOk cs.length cs h

theorem dashSub_angleOk (cs : List Char) (h : angleOk cs = true) :
    angleOk (dashSub cs) = true :=
  dashAux_angleOk cs.length cs (Nat.le_refl _) h 0

theorem cleanPipeline_angleOk (cs : List Char) :
    angleOk (cleanPipeline cs) = true := by
  unfold cleanPipeline
  exact dashSub_angleOk _ (pipeSub_angleOk _ (nl1Sub_angleOk_top _
    (nl2Sub_angleOk_top _ (mapLines_angleOk numLine numLine_angleOk _
      (mapLines_angleOk bulletLine bulletLine_angleOk _
        (mapLines_angleOk h1Line h1Line_angleOk _
          (mapLines_angleOk h2Line h2Line_angleOk _
            (boldSub_angleOk _ (escapeXmlChars_noAngle cs)))))))))

/-! ### Claim C10 -/

/-- C10: `_clean_text_for_pdf` escapes every `&`, `<` and `>` of its
input before inserting any of its own markup — after the escaping stage
the text contains no angle bracket at all, and in the final output every
`<` opens and every `>` closes one of the tags the function itself
inserts (`<b>`, `</b>`, `<br/>`), so no angle bracket of the original
input survives unescaped; empty (falsy) input yields the empty
string. -/
theorem string_data_mk (l : List Char) : (String.mk l).data = l := rfl

theorem c10_clean_text_escapes_before_markup (s : String) :
    noAngle (escapeXmlChars s.data) = true
    ∧ angleOk (clean_text_for_pdf s).data = true
    ∧ clean_text_for_pdf "" = "" := by
  refine ⟨escapeXmlChars_noAngle s.data, ?_, rfl⟩
  unfold clean_text_for_pdf
  by_cases hs : s = ""
  · rw [if_pos hs]
    rfl
  · rw [if_neg hs]
    rw [string_data_mk]
    exact cleanPipeline_angleOk s.data


/-! ### Report-generator lemmas -/

theorem canClean_ok (v : PyVal) (h : canClean v = true) :
    ∃ s, cleanValForPdf v = Except.ok s := by
  unfold cleanValForPdf
  by_cases ht : pyTruthy v = false
  · rw [if_pos ht]
    exact ⟨"", rfl⟩
  · rw [if_neg ht]
    unfold canClean at h
    simp only [Bool.or_eq_true, Bool.not_eq_true'] at h
    rcases h with h | h
    · exact absurd h ht
    · cases v with
      | vstr s => exact ⟨clean_text_for_pdf s, rfl⟩
      | vint n => simp at h
      | vbool b => simp at h
      | vnone => simp at h
      | vlist xs => simp at h
      | vdict es => simp at h
      | vobj attrs => simp at h
      | vforeign t => simp at h

theorem headingTexts_append (a b : List Flowable) :
    headingTexts (a ++ b) = headingTexts a ++ headingTexts b := by
  simp [headingTexts]

theorem bodyTexts_append (a b : List Flowable) :
    bodyTexts (a ++ b) = bodyTexts a ++ bodyTexts b := by
  simp [bodyTexts]

theorem headingTexts_answerFlow (ps : List String) :
    headingTexts (answerFlow ps) = [] := by
  induction ps with
  | nil => rfl
  | cons p rest ih =>
    simp only [answerFlow, List.map_cons, List.flatten_cons] at ih ⊢
    rw [headingTexts_append]
    simp [headingTexts, ih]

theorem bodyTexts_answerFlow (ps : List String) :
    bodyTexts (answerFlow ps) = ps := by
  induction ps with
  | nil => rfl
  | cons p rest ih =>
    simp only [answerFlow, List.map_cons, List.flatten_cons] at ih ⊢
    rw [bodyTexts_append]
    simpa [bodyTexts] using ih

theorem headingTexts_sepFlow (idx total : Nat) :
    headingTexts (sepFlow idx total) = [] := by
  unfold sepFlow
  split <;> rfl

theorem bodyTexts_sepFlow (idx total : Nat) :
    bodyTexts (sepFlow idx total) = [] := by
  unfold sepFlow
  split <;> rfl

theorem msgSection_spec (rt : String) (total idx : Nat)
    (m : List (String × PyVal)) (h : msgOk m = true) :
    msgSection rt total idx m = Except.ok
      ([Flowable.para
          (if rt = "full" then "Question " ++ toString idx else "Question")
          "CustomHeading",
        Flowable.para (cleanedQuestion m) "CustomBody", Flowable.spacer,
        Flowable.para
          (if rt = "full" then "Answer " ++ toString idx else "Answer")
          "CustomHeading"]
        ++ answerFlow (answerParas m) ++ sepFlow idx total) := by
  unfold msgOk at h
  simp only [Bool.and_eq_true] at h
  obtain ⟨qs, hq⟩ := canClean_ok _ h.1
  obtain ⟨as0, ha⟩ := canClean_ok _ h.2
  unfold msgSection
  rw [hq, ha]
  unfold cleanedQuestion answerParas
  rw [hq, ha]

theorem renderFrom_spec (rt : String) (total : Nat) :
    ∀ (ms : List (List (String × PyVal))) (idx : Nat),
      ms.all msgOk = true →
      ∃ fs, renderFrom rt total idx ms = Except.ok fs
        ∧ headingTexts fs = ((List.range' idx ms.length).map (fun i =>
            [(if rt = "full" then "Question " ++ toString i else "Question"),
             (if rt = "full" then "Answer " ++ toString i else "Answer")])).flatten
        ∧ bodyTexts fs = (ms.map msgBodyTexts).flatten := by
  intro ms
  induction ms with
  | nil =>
    intro idx _
    exact ⟨[], rfl, by simp [headingTexts], by simp [bodyTexts]⟩
  | cons m rest ih =>
    intro idx hall
    simp only [List.all_cons, Bool.and_eq_true] at hall
    obtain ⟨fs0, hfs0, hh0, hb0⟩ := ih (idx + 1) hall.2
    refine ⟨([Flowable.para
          (if rt = "full" then "Question " ++ toString idx else "Question")
          "CustomHeading",
        Flowable.para (cleanedQuestion m) "CustomBody", Flowable.spacer,
        Flowable.para
          (if rt = "full" then "Answer " ++ toString idx else "Answer")
          "CustomHeading"]
        ++ answerFlow (answerParas m) ++ sepFlow idx total) ++ fs0, ?_, ?_, ?_⟩
    · unfold renderFrom
      rw [msgSection_spec rt total idx m hall.1, hfs0]
    · simp only [headingTexts_append, headingTexts_answerFlow,
        headingTexts_sepFlow, hh0, List.append_nil, List.nil_append]
      simp [headingTexts, List.range'_succ]
    · simp only [bodyTexts_append, bodyTexts_answerFlow, bodyTexts_sepFlow,
        hb0, List.append_nil, List.nil_append]
      simp [bodyTexts, msgBodyTexts]

theorem messages_to_include_latest (ms : List (List (String × PyVal)))
    (h : ms ≠ []) :
    messages_to_include "latest" ms = [ms.getLast h] := by
  unfold messages_to_include
  rw [if_pos rfl, List.getLast?_eq_getLast ms h]

theorem messages_to_include_full (ms : List (List (String × PyVal))) :
    messages_to_include "full" ms = ms := by
  unfold messages_to_include
  rw [if_neg (by decide)]

theorem create_pdf_report_texts (title : String) (cid : Option Int)
    (tid : Option String) (ms : List (List (String × PyVal)))
    (uname : Option String) (logoExists : Bool) (rt dateStr : String)
    (body : List Flowable)
    (hbody : renderFrom rt (messages_to_include rt ms).length 1
      (messages_to_include rt ms) = Except.ok body) :
    ∃ elems, create_pdf_report title cid tid ms uname logoExists rt dateStr
        = Except.ok elems
      ∧ headingTexts elems = headingTexts body
      ∧ bodyTexts elems = bodyTexts body := by
  unfold create_pdf_report
  dsimp only
  rw [hbody]
  refine ⟨_, rfl, ?_, ?_⟩
  · rw [headingTexts_append, headingTexts_append, headingTexts_append,
      headingTexts_append, headingTexts_append]
    have h1 : headingTexts
        (if logoExists then [Flowable.image "logo", Flowable.spacer] else [])
        = [] := by split <;> rfl
    have h2 : ∀ md : List (String × String), headingTexts
        (if List.isEmpty md then [] else [Flowable.tbl, Flowable.spacer])
        = ([] : List String) := by intro md; split <;> rfl
    rw [h1, h2]
    simp [headingTexts]
  · rw [bodyTexts_append, bodyTexts_append, bodyTexts_append,
      bodyTexts_append, bodyTexts_append]
    have h1 : bodyTexts
        (if logoExists then [Flowable.image "logo", Flowable.spacer] else [])
        = [] := by split <;> rfl
    have h2 : ∀ md : List (String × String), bodyTexts
        (if List.isEmpty md then [] else [Flowable.tbl, Flowable.spacer])
        = ([] : List String) := by intro md; split <;> rfl
    rw [h1, h2]
    simp [bodyTexts]

/-! ### Claim C8 -/

/-- C8: for a non-empty stored-message list whose fields clean without
raising, a `latest` report contains exactly one question/answer pair —
the last message — under unnumbered `Question`/`Answer` headings, while
a `full` report contains every message in order under numbered
`Question i`/`Answer i` headings (`i` counting from 1). -/
theorem c8_report_type_selects_messages (title : String) (cid : Option Int)
    (tid : Option String) (messages : List (List (String × PyVal)))
    (uname : Option String) (logoExists : Bool) (dateStr : String)
    (hne : messages ≠ []) (hok : messages.all msgOk = true) :
    (∃ elems, create_pdf_report title cid tid messages uname logoExists
        "latest" dateStr = Except.ok elems
      ∧ headingTexts elems = ["Question", "Answer"]
      ∧ bodyTexts elems = msgBodyTexts (messages.getLast hne))
    ∧ (∃ elems, create_pdf_report title cid tid messages uname logoExists
        "full" dateStr = Except.ok elems
      ∧ headingTexts elems = ((List.range' 1 messages.length).map (fun i =>
          ["Question " ++ toString i, "Answer " ++ toString i])).flatten
      ∧ bodyTexts elems = (messages.map msgBodyTexts).flatten) := by
  constructor
  · have hlast : [messages.getLast hne].all msgOk = true := by
      simp only [List.all_cons, List.all_nil, Bool.and_true]
      exact (List.all_eq_true.mp hok) _ (List.getLast_mem hne)
    obtain ⟨fs, hfs, hh, hb⟩ := renderFrom_spec "latest" 1 [messages.getLast hne] 1 hlast
    have hmti := messages_to_include_latest messages hne
    obtain ⟨elems, he, hhe, hbe⟩ := create_pdf_report_texts title cid tid
      messages uname logoExists "latest" dateStr fs
      (by rw [hmti]; simpa using hfs)
    refine ⟨elems, he, ?_, ?_⟩
    · rw [hhe, hh]
      simp
    · rw [hbe, hb]
      simp
  · obtain ⟨fs, hfs, hh, hb⟩ := renderFrom_spec "full" messages.length messages 1 hok
    have hmti := messages_to_include_full messages
    obtain ⟨elems, he, hhe, hbe⟩ := create_pdf_report_texts title cid tid
      messages uname logoExists "full" dateStr fs
      (by rw [hmti]; exact hfs)
    refine ⟨elems, he, ?_, ?_⟩
    · rw [hhe, hh]
      simp
    · rw [hbe, hb]

/-- C8 witness: a two-message list evaluated concretely. -/
theorem c8_witness :
    (msgsW ≠ [] ∧ msgsW.all msgOk = true)
    ∧ ((∃ elems, create_pdf_report "T" none none msgsW none false
        "latest" "D" = Except.ok elems
      ∧ headingTexts elems = ["Question", "Answer"]
      ∧ bodyTexts elems = msgBodyTexts (msgsW.getLast (by simp [msgsW])))
    ∧ (∃ elems, create_pdf_report "T" none none msgsW none false
        "full" "D" = Except.ok elems
      ∧ headingTexts elems = ((List.range' 1 msgsW.length).map (fun i =>
          ["Question " ++ toString i, "Answer " ++ toString i])).flatten
      ∧ bodyTexts elems = (msgsW.map msgBodyTexts).flatten)) :=
  And.intro (And.intro (by simp [msgsW]) (by decide))
    (c8_report_type_selects_messages "T" none none msgsW none false "D"
      (by simp [msgsW]) (by decide))

end MarketIntel
